import Mathlib

set_option maxHeartbeats 1000000
set_option maxRecDepth 100000

/-!
Verification of `clang-tools-extra/clang-tidy/add_new_module.py`.

The script is embedded shallowly: Python strings become `String`, files become
lists of lines (strings that keep their trailing newline, as produced by
`readlines`), and the filesystem becomes an explicit structure of directories
and file contents.  Every definition follows the corresponding Python function
line by line.
-/

namespace AddNewModule

/-! ### Python string primitives, modelled on character lists -/

/-- Python `s.startswith(p)`. -/
def pyStartswith (s p : String) : Bool := p.data.isPrefixOf s.data

/-- Python `s.endswith(p)`. -/
def pyEndswith (s p : String) : Bool := p.data.isSuffixOf s.data

/-- Python `c in s` for a one-character needle `c`. -/
def pyContainsChar (s : String) (c : Char) : Bool := s.data.contains c

/-- Python `s.isalnum()`: nonempty and every character alphanumeric. -/
def pyIsAlnum (s : String) : Bool := !s.data.isEmpty && s.data.all Char.isAlphanum

/-- Lexicographic comparison of character lists by code point: Python `s < t`. -/
def listLtb : List Char → List Char → Bool
  | [], [] => false
  | [], _ :: _ => true
  | _ :: _, [] => false
  | a :: as, b :: bs =>
    if a < b then true
    else if b < a then false
    else listLtb as bs

/-- Python `a < b` on strings (code-point lexicographic). -/
def pyStrLt (a b : String) : Bool := listLtb a.data b.data

/-- Python `a >= b` on strings: the negation of `a < b` in Python's total order. -/
def pyStrGe (a b : String) : Bool := !pyStrLt a b

theorem listLtb_irrefl (l : List Char) : listLtb l l = false := by
  induction l with
  | nil => rfl
  | cons a as ih => simp [listLtb, ih]

theorem pyStrGe_refl (s : String) : pyStrGe s s = true := by
  simp [pyStrGe, pyStrLt, listLtb_irrefl]

theorem ne_of_pyStrGe_false {l c : String} (h : pyStrGe l c = false) : ¬ l = c := by
  intro e
  subst e
  rw [pyStrGe_refl] at h
  exact Bool.noConfusion h

/-- Python `s.capitalize()`: first character uppercased, all others lowercased. -/
def pyCapitalize (s : String) : String :=
  match s.data with
  | [] => ""
  | c :: cs => String.mk (c.toUpper :: cs.map Char.toLower)

/-- Helper for Python `s.split("-")`, accumulating the current segment. -/
def splitHyphenAux : List Char → List Char → List (List Char)
  | [], acc => [acc.reverse]
  | c :: cs, acc =>
    if c = '-' then acc.reverse :: splitHyphenAux cs []
    else splitHyphenAux cs (c :: acc)

/-- Python `s.split("-")`. -/
def pySplitHyphen (s : String) : List String := (splitHyphenAux s.data []).map String.mk

/-- `get_camel_name` from the script:
`"".join(map(lambda elem: elem.capitalize(), check_name.split("-")))`. -/
def get_camel_name (check_name : String) : String :=
  String.join ((pySplitHyphen check_name).map pyCapitalize)

/-- Python `os.path.join(a, b)` for the relative paths the script uses. -/
def pyJoin (a b : String) : String :=
  if a = "" then b
  else if pyEndswith a "/" then a ++ b
  else a ++ "/" ++ b

/-! ### Reading a file into lines (`readlines`) and writing lines back -/

/-- Splitter behind Python `readlines`: `acc` holds the current line read so
far (reversed); each produced line keeps its trailing newline, and a final
line without a newline is kept as is. -/
def splitLinesAcc : List Char → List Char → List (List Char)
  | [], acc => if acc = [] then [] else [acc.reverse]
  | c :: cs, acc =>
    if c = '\n' then (acc.reverse ++ ['\n']) :: splitLinesAcc cs []
    else splitLinesAcc cs (c :: acc)

/-- Python `f.readlines()` on a file's whole content. -/
def pyReadlines (s : String) : List String := (splitLinesAcc s.data []).map String.mk

/-- Writing a list of lines back to a file (`for line in linesout: f.write(line)`). -/
def concatLines : List String → String
  | [] => ""
  | l :: ls => l ++ concatLines ls

/-- A well-formed text line: ends with a newline, with no interior newline. -/
def isLineStr (s : String) : Bool :=
  (s.data.getLast? == some '\n') && !(s.data.dropLast.contains '\n')

/-! ### The filesystem model -/

/-- An explicit filesystem: a set of directories and file contents by path. -/
structure FS where
  dirs : List String
  files : List (String × String)
deriving DecidableEq

/-- Update an association list at a key, replacing the first binding or appending. -/
def setAssoc : List (String × String) → String → String → List (String × String)
  | [], p, v => [(p, v)]
  | (q, w) :: t, p, v =>
    if q = p then (p, v) :: t else (q, w) :: setAssoc t p v

def FS.getFile (fs : FS) (p : String) : Option String :=
  (fs.files.find? (fun kv => kv.1 = p)).map (fun kv => kv.2)

def FS.setFile (fs : FS) (p v : String) : FS := ⟨fs.dirs, setAssoc fs.files p v⟩

/-- Python `os.path.exists`: true for a directory or a file at the path. -/
def FS.existsPath (fs : FS) (p : String) : Bool :=
  fs.dirs.contains p || fs.files.any (fun kv => kv.1 = p)

def FS.mkdir (fs : FS) (p : String) : FS := ⟨p :: fs.dirs, fs.files⟩

/-! ### The generated templates (`write_cmake`, `write_module_cpp`) -/

/-- The CMakeLists.txt template written by `write_cmake`, with its two
substitution points filled in. -/
def cmakeTemplate (module_camel : String) : String :=
  "set(LLVM_LINK_COMPONENTS\n  FrontendOpenMP\n  Support\n  )\n\nadd_clang_library(clangTidy"
  ++ module_camel ++ "Module STATIC\n  " ++ module_camel
  ++ "TidyModule.cpp\n\n  LINK_LIBS\n  clangTidy\n  clangTidyUtils\n\n  DEPENDS\n  omp_gen\n  ClangDriverOptions\n  )\n\nclang_target_link_libraries(clangTidy"
  ++ module_camel
  ++ "Module\n  PRIVATE\n  clangAnalysis\n  clangAST\n  clangASTMatchers\n  clangBasic\n  clangLex\n  )\n"

/-- `write_cmake`: write the boilerplate CMakeLists file if missing
(silently returning when the file already exists). -/
def write_cmake (fs : FS) (module_path module_camel : String) : FS × List String :=
  let filename := pyJoin module_path "CMakeLists.txt"
  if fs.existsPath filename then (fs, [])
  else (fs.setFile filename (cmakeTemplate module_camel),
        ["Creating " ++ filename ++ "..."])

/-- The `%sTidyModule.cpp` template written by `write_module_cpp`, assembled
exactly as the sequence of `f.write` calls in the script. -/
def moduleCppTemplate (module module_camel namespace_ : String) : String :=
  let basename := module_camel ++ "TidyModule.cpp"
  let class_name := module_camel ++ "Module"
  "//===--- " ++ basename ++ " - clang-tidy "
  ++ String.mk (List.replicate (51 - basename.length) '-')
  ++ "-===//"
  ++ "\n//\n// Part of the LLVM Project, under the Apache License v2.0 with LLVM Exceptions.\n// See https://llvm.org/LICENSE.txt for license information.\n// SPDX-License-Identifier: Apache-2.0 WITH LLVM-exception\n//\n//===----------------------------------------------------------------------===//\n\n#include \"../ClangTidy.h\"\n#include \"../ClangTidyModule.h\"\n#include \"../ClangTidyModuleRegistry.h\"\n\nnamespace clang::tidy \x7b\nnamespace "
  ++ namespace_ ++ " \x7b\n\nclass " ++ class_name
  ++ " : public ClangTidyModule \x7b\npublic:\n  void addCheckFactories(ClangTidyCheckFactories &CheckFactories) override \x7b\n  \x7d\n\x7d;\n\n\x7d // namespace "
  ++ namespace_ ++ "\n\n// Register the " ++ class_name
  ++ " using this statically initialized variable.\nstatic ClangTidyModuleRegistry::Add<"
  ++ namespace_ ++ "::" ++ class_name ++ ">\n    X(\"" ++ module
  ++ "-module\", \"Adds " ++ module
  ++ "-specific lint checks.\");\n\n// This anchor is used to force the linker to link in the generated object file\n// and thus register the "
  ++ class_name ++ ".\nvolatile int " ++ class_name
  ++ "AnchorSource = 0;\n\n\x7d // namespace clang::tidy\n"

/-- `write_module_cpp`: write the module registration source if missing,
printing a skip message when the file already exists. -/
def write_module_cpp (fs : FS) (module_path module module_camel namespace_ : String) :
    FS × List String :=
  let filename := pyJoin module_path (module_camel ++ "TidyModule.cpp")
  if fs.existsPath filename then (fs, ["File already exists: " ++ filename])
  else (fs.setFile filename (moduleCppTemplate module module_camel namespace_),
        ["Creating " ++ filename ++ "..."])

/-! ### The ordered line merge of `update_clang_tidy_cmake` -/

/-- The candidate subdirectory line `"add_subdirectory(%s)\n" % module`. -/
def subdirCand (module : String) : String := "add_subdirectory(" ++ module ++ ")\n"

/-- The candidate library line `"  clangTidy%sModule\n" % module_camel`. -/
def libCand (module_camel : String) : String := "  clangTidy" ++ module_camel ++ "Module\n"

/-- The initial scan `while j < len(lines) and not lines[j].startswith(...)`:
returns the lines before the first line satisfying `p`, and the rest. -/
def spanUntil (p : String → Bool) : List String → List String × List String
  | [] => ([], [])
  | l :: ls =>
    if p l then ([], l :: ls)
    else
      let r := spanUntil p ls
      (l :: r.1, r.2)

/-- A scan that consumes lines up to and including the first line satisfying `p`
(the inner `while` that skips an `if(...)`/`#if` block, and the scan for the
`set(ALL_CLANG_TIDY_CHECKS` marker). -/
def consumeThrough (p : String → Bool) : List String → List String × List String
  | [] => ([], [])
  | l :: ls =>
    if p l then ([l], ls)
    else
      let r := consumeThrough p ls
      (l :: r.1, r.2)

/-- The first merge loop of `update_clang_tidy_cmake` (lines 141-157): scan the
`add_subdirectory` region, skipping `if(...)` ... `endif()` blocks, stopping at
the `set(ALL_CLANG_TIDY_CHECKS` marker, at a line equal to the candidate (then
the candidate is dropped), or at the first line sorting `>=` the candidate.
Returns (consumed lines, remaining lines, whether to add the candidate). -/
def cmakeSubdirScan (cand : String) : Bool → List String → List String × List String × Bool
  | _, [] => ([], [], true)
  | true, l :: ls =>
    let q := cmakeSubdirScan cand (!pyStartswith l "endif()") ls
    (l :: q.1, q.2.1, q.2.2)
  | false, l :: ls =>
    if pyStartswith l "if(" then
      let q := cmakeSubdirScan cand true ls
      (l :: q.1, q.2.1, q.2.2)
    else if pyStartswith l "set(ALL_CLANG_TIDY_CHECKS" then ([], l :: ls, true)
    else if l = cand then ([], l :: ls, false)
    else if pyStrGe l cand then ([], l :: ls, true)
    else
      let q := cmakeSubdirScan cand false ls
      (l :: q.1, q.2.1, q.2.2)

/-- The second merge loop of `update_clang_tidy_cmake` (lines 175-183): scan the
library-name region, stopping at the first line containing `")"`, at a line
equal to the candidate (dropping it), or at the first line sorting `>=` it. -/
def cmakeLibScan (cand : String) : List String → List String × List String × Bool
  | [] => ([], [], true)
  | l :: ls =>
    if pyContainsChar l ')' then ([], l :: ls, true)
    else if l = cand then ([], l :: ls, false)
    else if pyStrGe l cand then ([], l :: ls, true)
    else
      let q := cmakeLibScan cand ls
      (l :: q.1, q.2.1, q.2.2)

/-- Phase of `update_clang_tidy_cmake` after the `set(ALL_CLANG_TIDY_CHECKS`
marker has been consumed: merge the library line and keep the remainder. -/
def cmakeLibPhase (module_camel : String) (rest : List String) : List String :=
  let cand2 := libCand module_camel
  let q := cmakeLibScan cand2 rest
  q.1 ++ (if q.2.2 then [cand2] else []) ++ q.2.1

/-- Phases of `update_clang_tidy_cmake` after the subdirectory merge: consume
through the `set(ALL_CLANG_TIDY_CHECKS` marker, then merge the library line. -/
def cmakeAfterSubdirPhase (module_camel : String) (r1 : List String) : List String :=
  let c := consumeThrough (fun l => pyStartswith l "set(ALL_CLANG_TIDY_CHECKS") r1
  c.1 ++ cmakeLibPhase module_camel c.2

/-- The whole line transformation performed by `update_clang_tidy_cmake`. -/
def update_cmake_lines (lines : List String) (module module_camel : String) : List String :=
  let cand1 := subdirCand module
  let a := spanUntil (fun l => pyStartswith l "add_subdirectory(") lines
  let b := cmakeSubdirScan cand1 false a.2
  a.1 ++ b.1 ++ (if b.2.2 then [cand1] else []) ++ cmakeAfterSubdirPhase module_camel b.2.1

/-- `update_clang_tidy_cmake`: read `CMakeLists.txt`, merge the two candidate
lines, and rewrite the file only when the line list changed.  `none` models the
uncaught exception when the file cannot be read. -/
def update_clang_tidy_cmake (fs : FS) (clang_tidy_path module module_camel : String) :
    Option (FS × List String) :=
  let cmake_path := pyJoin clang_tidy_path "CMakeLists.txt"
  match fs.getFile cmake_path with
  | none => none
  | some content =>
    let lines := pyReadlines content
    let linesout := update_cmake_lines lines module module_camel
    if lines = linesout then some (fs, ["Module already included: " ++ cmake_path])
    else some (fs.setFile cmake_path (concatLines linesout),
               ["Updating " ++ cmake_path ++ "..."])

/-! ### The anchor merge of `update_clang_tidy_force_linker` -/

/-- The first anchor line `link_lines[0]` for a module. -/
def anchorCand (module_camel : String) : String :=
  "// This anchor is used to force the linker to link the " ++ module_camel ++ "Module.\n"

/-- The five anchor lines `link_lines` for a module. -/
def linkLinesOf (module_camel : String) : List String :=
  [anchorCand module_camel,
   "extern volatile int " ++ module_camel ++ "ModuleAnchorSource;\n",
   "static int LLVM_ATTRIBUTE_UNUSED " ++ module_camel ++ "ModuleAnchorDestination =\n",
   "    " ++ module_camel ++ "ModuleAnchorSource;\n",
   "\n"]

/-- The merge loop of `update_clang_tidy_force_linker` (lines 225-247): skip
`#if` ... `#endif` blocks, stop at `"} // namespace"`, step over lines that are
not anchor comments, and compare anchor comments with `link_lines[0]`.
Returns (consumed lines, remaining lines, whether to add the block). -/
def forceLinkerScan (first : String) : Bool → List String → List String × List String × Bool
  | _, [] => ([], [], true)
  | true, l :: ls =>
    let q := forceLinkerScan first (!pyStartswith l "#endif") ls
    (l :: q.1, q.2.1, q.2.2)
  | false, l :: ls =>
    if pyStartswith l "#if" then
      let q := forceLinkerScan first true ls
      (l :: q.1, q.2.1, q.2.2)
    else if pyStartswith l "\x7d // namespace" then ([], l :: ls, true)
    else if !pyStartswith l "// This anchor " then
      let q := forceLinkerScan first false ls
      (l :: q.1, q.2.1, q.2.2)
    else if l = first then ([], l :: ls, false)
    else if pyStrGe l first then ([], l :: ls, true)
    else
      let q := forceLinkerScan first false ls
      (l :: q.1, q.2.1, q.2.2)

/-- The whole line transformation performed by `update_clang_tidy_force_linker`. -/
def update_force_linker_lines (lines : List String) (module_camel : String) : List String :=
  let link_lines := linkLinesOf module_camel
  let a := spanUntil (fun l => pyStartswith l "// This anchor ") lines
  let b := forceLinkerScan (anchorCand module_camel) false a.2
  a.1 ++ b.1 ++ (if b.2.2 then link_lines else []) ++ b.2.1

/-- `update_clang_tidy_force_linker`: read `ClangTidyForceLinker.h`, merge the
anchor block, and rewrite the file only when the line list changed. -/
def update_clang_tidy_force_linker (fs : FS) (clang_tidy_path module_camel : String) :
    Option (FS × List String) :=
  let header_path := pyJoin clang_tidy_path "ClangTidyForceLinker.h"
  match fs.getFile header_path with
  | none => none
  | some content =>
    let lines := pyReadlines content
    let linesout := update_force_linker_lines lines module_camel
    if lines = linesout then some (fs, ["Module already has forced link: " ++ header_path])
    else some (fs.setFile header_path (concatLines linesout),
               ["Updating " ++ header_path ++ "..."])

/-! ### The entry point `main` -/

/-- The usage text argparse prints for `parser.print_usage()`.
Modelled from the spec: argparse generates it from the two declared arguments;
its exact rendering is outside the script's own source. -/
def usageText : String :=
  "usage: add_new_module.py [-h] [--description DESCRIPTION] [module]"

def module_path_of (clang_tidy_path module : String) : String :=
  pyJoin clang_tidy_path module

def docs_path_of (clang_tidy_path module : String) : String :=
  pyJoin (pyJoin (pyJoin (pyJoin (pyJoin clang_tidy_path "..") "docs") "clang-tidy") "checks") module

def test_path_of (clang_tidy_path module : String) : String :=
  pyJoin (pyJoin (pyJoin (pyJoin (pyJoin clang_tidy_path "..") "test") "clang-tidy") "checkers") module

/-- `main`: validate the module argument, create the module/docs/test
directories, write the two template files, and patch the two shared files.
`clang_tidy_path` stands for `os.path.dirname(sys.argv[0])`; `description` is
the parsed `--description` option; the `Option String` argument is the
positional `module` argument (`none` when absent).  Returns the final
filesystem and the lines printed on standard output, or `none` when an
unhandled filesystem error aborts the run. -/
def main (fs : FS) (clang_tidy_path : String) (moduleArg : Option String)
    (description : String) : Option (FS × List String) :=
  match moduleArg with
  | none => some (fs, ["Module must be specified.", usageText])
  | some module =>
    if module = "" then some (fs, ["Module must be specified.", usageText])
    else if !pyIsAlnum module then
      some (fs, ["Module name must be alphanumeric: " ++ module])
    else
      let module_camel := get_camel_name module
      let module_path := module_path_of clang_tidy_path module
      let step1 : FS × List String :=
        if fs.existsPath module_path then (fs, ["Module path already exists: " ++ module_path])
        else (fs.mkdir module_path, ["Creating " ++ module_path ++ "..."])
      let step2 := write_cmake step1.1 module_path module_camel
      let step3 := write_module_cpp step2.1 module_path module module_camel module
      let docs_path := docs_path_of clang_tidy_path module
      let step4 : FS × List String :=
        if step3.1.existsPath docs_path then (step3.1, ["Docs path already exists: " ++ docs_path])
        else (step3.1.mkdir docs_path, ["Creating " ++ docs_path ++ "..."])
      let test_path := test_path_of clang_tidy_path module
      let step5 : FS × List String :=
        if step4.1.existsPath test_path then (step4.1, ["Test path already exists: " ++ test_path])
        else (step4.1.mkdir test_path, ["Creating " ++ test_path ++ "..."])
      match update_clang_tidy_cmake step5.1 clang_tidy_path module module_camel with
      | none => none
      | some step6 =>
        match update_clang_tidy_force_linker step6.1 clang_tidy_path module_camel with
        | none => none
        | some step7 =>
          some (step7.1,
            step1.2 ++ step2.2 ++ step3.2 ++ step4.2 ++ step5.2 ++ step6.2 ++ step7.2
              ++ ["Done. Now it's your turn!"])

/-! ### Basic lemmas about the scan loops -/

theorem spanUntil_cat (p : String → Bool) (l : List String) :
    (spanUntil p l).1 ++ (spanUntil p l).2 = l := by
  induction l with
  | nil => simp [spanUntil]
  | cons x xs ih => by_cases h : p x <;> simp [spanUntil, h, ih]

theorem spanUntil_stop (p : String → Bool) (pre : List String) (x : String)
    (rest : List String) (hpre : ∀ l ∈ pre, p l = false) (hx : p x = true) :
    spanUntil p (pre ++ x :: rest) = (pre, x :: rest) := by
  induction pre with
  | nil => simp [spanUntil, hx]
  | cons y ys ih =>
    have hy : p y = false := hpre y (by simp)
    simp only [List.cons_append, spanUntil, hy]
    simp [ih (fun l hl => hpre l (by simp [hl]))]

theorem consumeThrough_cat (p : String → Bool) (l : List String) :
    (consumeThrough p l).1 ++ (consumeThrough p l).2 = l := by
  induction l with
  | nil => simp [consumeThrough]
  | cons x xs ih => by_cases h : p x <;> simp [consumeThrough, h, ih]

theorem consumeThrough_stop (p : String → Bool) (pre : List String) (x : String)
    (rest : List String) (hpre : ∀ l ∈ pre, p l = false) (hx : p x = true) :
    consumeThrough p (pre ++ x :: rest) = (pre ++ [x], rest) := by
  induction pre with
  | nil => simp [consumeThrough, hx]
  | cons y ys ih =>
    have hy : p y = false := hpre y (by simp)
    simp only [List.cons_append, consumeThrough, hy]
    simp [ih (fun l hl => hpre l (by simp [hl]))]

/-! ### Lemmas about `cmakeSubdirScan` -/

theorem subdirScan_cat (cand : String) (flag : Bool) (l : List String) :
    (cmakeSubdirScan cand flag l).1 ++ (cmakeSubdirScan cand flag l).2.1 = l := by
  induction l generalizing flag with
  | nil => cases flag <;> simp [cmakeSubdirScan]
  | cons x xs ih =>
    cases flag
    · by_cases h : pyStartswith x "if("
      · simp [cmakeSubdirScan, h, ih]
      · by_cases h2 : pyStartswith x "set(ALL_CLANG_TIDY_CHECKS"
        · simp [cmakeSubdirScan, h, h2]
        · by_cases h3 : x = cand
          · subst h3
            simp [cmakeSubdirScan, h, h2]
          · by_cases h4 : pyStrGe x cand = true
            · simp [cmakeSubdirScan, h, h2, h3, h4]
            · simp [cmakeSubdirScan, h, h2, h3, h4, ih]
    · simp [cmakeSubdirScan, ih]

theorem subdirScan_cons_consume (cand l : String) (ls : List String)
    (h1 : pyStartswith l "if(" = false)
    (h2 : pyStartswith l "set(ALL_CLANG_TIDY_CHECKS" = false)
    (h3 : pyStrGe l cand = false) :
    cmakeSubdirScan cand false (l :: ls) =
      (l :: (cmakeSubdirScan cand false ls).1,
       (cmakeSubdirScan cand false ls).2.1, (cmakeSubdirScan cand false ls).2.2) := by
  have hne : ¬ l = cand := ne_of_pyStrGe_false h3
  simp [cmakeSubdirScan, h1, h2, hne, h3]

theorem subdirScan_stop_eq (cand l : String) (ls : List String)
    (h1 : pyStartswith l "if(" = false)
    (h2 : pyStartswith l "set(ALL_CLANG_TIDY_CHECKS" = false)
    (he : l = cand) :
    cmakeSubdirScan cand false (l :: ls) = ([], l :: ls, false) := by
  subst he
  simp [cmakeSubdirScan, h1, h2]

theorem subdirScan_stop_ge (cand l : String) (ls : List String)
    (h1 : pyStartswith l "if(" = false)
    (h2 : pyStartswith l "set(ALL_CLANG_TIDY_CHECKS" = false)
    (hne : ¬ l = cand) (hge : pyStrGe l cand = true) :
    cmakeSubdirScan cand false (l :: ls) = ([], l :: ls, true) := by
  simp [cmakeSubdirScan, h1, h2, hne, hge]

theorem subdirScan_stop_marker (cand l : String) (ls : List String)
    (h1 : pyStartswith l "if(" = false)
    (h2 : pyStartswith l "set(ALL_CLANG_TIDY_CHECKS" = true) :
    cmakeSubdirScan cand false (l :: ls) = ([], l :: ls, true) := by
  simp [cmakeSubdirScan, h1, h2]

theorem subdirScan_inblock (cand gend : String) (body X : List String)
    (hb : ∀ l ∈ body, pyStartswith l "endif()" = false)
    (he : pyStartswith gend "endif()" = true) :
    cmakeSubdirScan cand true (body ++ gend :: X) =
      (body ++ gend :: (cmakeSubdirScan cand false X).1,
       (cmakeSubdirScan cand false X).2.1, (cmakeSubdirScan cand false X).2.2) := by
  induction body with
  | nil => simp [cmakeSubdirScan, he]
  | cons y ys ih =>
    have hy := hb y (by simp)
    simp [cmakeSubdirScan, hy, ih (fun l hl => hb l (by simp [hl]))]

theorem subdirScan_skip_block (cand gif gend : String) (body X : List String)
    (hg : pyStartswith gif "if(" = true)
    (hb : ∀ l ∈ body, pyStartswith l "endif()" = false)
    (he : pyStartswith gend "endif()" = true) :
    cmakeSubdirScan cand false (gif :: (body ++ gend :: X)) =
      (gif :: (body ++ gend :: (cmakeSubdirScan cand false X).1),
       (cmakeSubdirScan cand false X).2.1, (cmakeSubdirScan cand false X).2.2) := by
  simp [cmakeSubdirScan, hg, subdirScan_inblock cand gend body X hb he]

theorem subdirScan_consume_front (cand : String) (T X : List String)
    (hT : ∀ l ∈ T, pyStartswith l "if(" = false ∧
      pyStartswith l "set(ALL_CLANG_TIDY_CHECKS" = false ∧ pyStrGe l cand = false) :
    cmakeSubdirScan cand false (T ++ X) =
      (T ++ (cmakeSubdirScan cand false X).1,
       (cmakeSubdirScan cand false X).2.1, (cmakeSubdirScan cand false X).2.2) := by
  induction T with
  | nil => simp
  | cons y ys ih =>
    obtain ⟨hy1, hy2, hy3⟩ := hT y (by simp)
    rw [List.cons_append, subdirScan_cons_consume cand y (ys ++ X) hy1 hy2 hy3,
        ih (fun l hl => hT l (by simp [hl]))]
    simp

/-! ### Lemmas about `cmakeLibScan` -/

theorem libScan_cat (cand : String) (l : List String) :
    (cmakeLibScan cand l).1 ++ (cmakeLibScan cand l).2.1 = l := by
  induction l with
  | nil => simp [cmakeLibScan]
  | cons x xs ih =>
    by_cases h1 : pyContainsChar x ')'
    · simp [cmakeLibScan, h1]
    · by_cases h2 : x = cand
      · subst h2
        simp [cmakeLibScan, h1]
      · by_cases h3 : pyStrGe x cand = true <;> simp [cmakeLibScan, h1, h2, h3, ih]

theorem libScan_cons_consume (cand l : String) (ls : List String)
    (h1 : pyContainsChar l ')' = false) (h3 : pyStrGe l cand = false) :
    cmakeLibScan cand (l :: ls) =
      (l :: (cmakeLibScan cand ls).1,
       (cmakeLibScan cand ls).2.1, (cmakeLibScan cand ls).2.2) := by
  have hne : ¬ l = cand := ne_of_pyStrGe_false h3
  simp [cmakeLibScan, h1, hne, h3]

theorem libScan_stop_paren (cand l : String) (ls : List String)
    (h1 : pyContainsChar l ')' = true) :
    cmakeLibScan cand (l :: ls) = ([], l :: ls, true) := by
  simp [cmakeLibScan, h1]

theorem libScan_stop_eq (cand l : String) (ls : List String)
    (h1 : pyContainsChar l ')' = false) (he : l = cand) :
    cmakeLibScan cand (l :: ls) = ([], l :: ls, false) := by
  subst he
  simp [cmakeLibScan, h1]

theorem libScan_stop_ge (cand l : String) (ls : List String)
    (h1 : pyContainsChar l ')' = false) (hne : ¬ l = cand) (hge : pyStrGe l cand = true) :
    cmakeLibScan cand (l :: ls) = ([], l :: ls, true) := by
  simp [cmakeLibScan, h1, hne, hge]

theorem libScan_consume_front (cand : String) (T X : List String)
    (hT : ∀ l ∈ T, pyContainsChar l ')' = false ∧ pyStrGe l cand = false) :
    cmakeLibScan cand (T ++ X) =
      (T ++ (cmakeLibScan cand X).1,
       (cmakeLibScan cand X).2.1, (cmakeLibScan cand X).2.2) := by
  induction T with
  | nil => simp
  | cons y ys ih =>
    obtain ⟨hy1, hy3⟩ := hT y (by simp)
    rw [List.cons_append, libScan_cons_consume cand y (ys ++ X) hy1 hy3,
        ih (fun l hl => hT l (by simp [hl]))]
    simp

/-! ### Lemmas about `forceLinkerScan` -/

theorem flScan_cat (first : String) (flag : Bool) (l : List String) :
    (forceLinkerScan first flag l).1 ++ (forceLinkerScan first flag l).2.1 = l := by
  induction l generalizing flag with
  | nil => cases flag <;> simp [forceLinkerScan]
  | cons x xs ih =>
    cases flag
    · by_cases h : pyStartswith x "#if"
      · simp [forceLinkerScan, h, ih]
      · by_cases h2 : pyStartswith x "\x7d // namespace"
        · simp [forceLinkerScan, h, h2]
        · by_cases h3 : pyStartswith x "// This anchor "
          · by_cases h4 : x = first
            · subst h4
              simp [forceLinkerScan, h, h2, h3]
            · by_cases h5 : pyStrGe x first = true
              · simp [forceLinkerScan, h, h2, h3, h4, h5]
              · simp [forceLinkerScan, h, h2, h3, h4, h5, ih]
          · simp [forceLinkerScan, h, h2, h3, ih]
    · simp [forceLinkerScan, ih]

theorem flScan_cons_skipover (first l : String) (ls : List String)
    (h1 : pyStartswith l "#if" = false)
    (h2 : pyStartswith l "\x7d // namespace" = false)
    (h3 : pyStartswith l "// This anchor " = false) :
    forceLinkerScan first false (l :: ls) =
      (l :: (forceLinkerScan first false ls).1,
       (forceLinkerScan first false ls).2.1, (forceLinkerScan first false ls).2.2) := by
  simp [forceLinkerScan, h1, h2, h3]

theorem flScan_cons_lt (first l : String) (ls : List String)
    (h1 : pyStartswith l "#if" = false)
    (h2 : pyStartswith l "\x7d // namespace" = false)
    (h4 : pyStrGe l first = false) :
    forceLinkerScan first false (l :: ls) =
      (l :: (forceLinkerScan first false ls).1,
       (forceLinkerScan first false ls).2.1, (forceLinkerScan first false ls).2.2) := by
  have hne : ¬ l = first := ne_of_pyStrGe_false h4
  by_cases h3 : pyStartswith l "// This anchor "
  · simp [forceLinkerScan, h1, h2, h3, hne, h4]
  · simp [forceLinkerScan, h1, h2, h3]

theorem flScan_stop_close (first l : String) (ls : List String)
    (h1 : pyStartswith l "#if" = false)
    (h2 : pyStartswith l "\x7d // namespace" = true) :
    forceLinkerScan first false (l :: ls) = ([], l :: ls, true) := by
  simp [forceLinkerScan, h1, h2]

theorem flScan_stop_eq (first l : String) (ls : List String)
    (h1 : pyStartswith l "#if" = false)
    (h2 : pyStartswith l "\x7d // namespace" = false)
    (h3 : pyStartswith l "// This anchor " = true)
    (he : l = first) :
    forceLinkerScan first false (l :: ls) = ([], l :: ls, false) := by
  subst he
  simp [forceLinkerScan, h1, h2, h3]

theorem flScan_stop_ge (first l : String) (ls : List String)
    (h1 : pyStartswith l "#if" = false)
    (h2 : pyStartswith l "\x7d // namespace" = false)
    (h3 : pyStartswith l "// This anchor " = true)
    (hne : ¬ l = first) (hge : pyStrGe l first = true) :
    forceLinkerScan first false (l :: ls) = ([], l :: ls, true) := by
  simp [forceLinkerScan, h1, h2, h3, hne, hge]

theorem flScan_inblock (first gend : String) (body X : List String)
    (hb : ∀ l ∈ body, pyStartswith l "#endif" = false)
    (he : pyStartswith gend "#endif" = true) :
    forceLinkerScan first true (body ++ gend :: X) =
      (body ++ gend :: (forceLinkerScan first false X).1,
       (forceLinkerScan first false X).2.1, (forceLinkerScan first false X).2.2) := by
  induction body with
  | nil => simp [forceLinkerScan, he]
  | cons y ys ih =>
    have hy := hb y (by simp)
    simp [forceLinkerScan, hy, ih (fun l hl => hb l (by simp [hl]))]

theorem flScan_skip_block (first gif gend : String) (body X : List String)
    (hg : pyStartswith gif "#if" = true)
    (hb : ∀ l ∈ body, pyStartswith l "#endif" = false)
    (he : pyStartswith gend "#endif" = true) :
    forceLinkerScan first false (gif :: (body ++ gend :: X)) =
      (gif :: (body ++ gend :: (forceLinkerScan first false X).1),
       (forceLinkerScan first false X).2.1, (forceLinkerScan first false X).2.2) := by
  simp [forceLinkerScan, hg, flScan_inblock first gend body X hb he]

theorem flScan_consume_front (first : String) (B X : List String)
    (hB : ∀ l ∈ B, pyStartswith l "#if" = false ∧
      pyStartswith l "\x7d // namespace" = false ∧
      (pyStartswith l "// This anchor " = false ∨ pyStrGe l first = false)) :
    forceLinkerScan first false (B ++ X) =
      (B ++ (forceLinkerScan first false X).1,
       (forceLinkerScan first false X).2.1, (forceLinkerScan first false X).2.2) := by
  induction B with
  | nil => simp
  | cons y ys ih =>
    obtain ⟨hy1, hy2, hy3⟩ := hB y (by simp)
    have step : forceLinkerScan first false (y :: (ys ++ X)) =
        (y :: (forceLinkerScan first false (ys ++ X)).1,
         (forceLinkerScan first false (ys ++ X)).2.1,
         (forceLinkerScan first false (ys ++ X)).2.2) := by
      rcases hy3 with hy3 | hy3
      · exact flScan_cons_skipover first y (ys ++ X) hy1 hy2 hy3
      · exact flScan_cons_lt first y (ys ++ X) hy1 hy2 hy3
    rw [List.cons_append, step, ih (fun l hl => hB l (by simp [hl]))]
    simp

/-! ### String and line lemmas -/

theorem strData_inj {s t : String} (h : s.data = t.data) : s = t := by
  cases s
  cases t
  exact congrArg String.mk h

theorem strMk_data (s : String) : String.mk s.data = s := by
  cases s
  rfl

theorem pyStartswith_append_lit (lit p x : String) (h : pyStartswith lit p = true) :
    pyStartswith (lit ++ x) p = true := by
  have hp : p.data <+: lit.data := List.isPrefixOf_iff_prefix.mp h
  have : p.data <+: (lit ++ x).data := by
    rw [String.data_append]
    exact hp.trans (List.prefix_append _ _)
  exact List.isPrefixOf_iff_prefix.mpr this

theorem pyStartswith_append_lit_false (lit x p : String)
    (h : p.data.take lit.data.length ≠ lit.data.take p.data.length) :
    pyStartswith (lit ++ x) p = false := by
  rw [Bool.eq_false_iff]
  intro hc
  apply h
  have hp : p.data <+: lit.data ++ x.data := by
    have := List.isPrefixOf_iff_prefix.mp hc
    rwa [String.data_append] at this
  rcases Nat.le_total p.data.length lit.data.length with hle | hle
  · have hp2 : p.data = lit.data.take p.data.length := by
      have h1 : p.data = (lit.data ++ x.data).take p.data.length :=
        List.prefix_iff_eq_take.mp hp
      rwa [List.take_append_of_le_length hle] at h1
    rw [List.take_of_length_le hle, ← hp2]
  · have hl2 : lit.data = p.data.take lit.data.length := by
      have h1 : p.data = (lit.data ++ x.data).take p.data.length :=
        List.prefix_iff_eq_take.mp hp
      rw [h1, List.take_take, Nat.min_eq_left hle, List.take_left]
    rw [← hl2, List.take_of_length_le hle]

theorem pyStartswith_append_self (p x : String) : pyStartswith (p ++ x) p = true :=
  pyStartswith_append_lit p p x (by simp [pyStartswith, List.isPrefixOf_iff_prefix])

theorem isLineStr_intro (u : List Char) (s : String)
    (hdata : s.data = u ++ ['\n']) (h : '\n' ∉ u) : isLineStr s = true := by
  simp [isLineStr, hdata, h]

theorem isLineStr_elim {s : String} (h : isLineStr s = true) :
    ∃ u, s.data = u ++ ['\n'] ∧ '\n' ∉ u := by
  unfold isLineStr at h
  rw [Bool.and_eq_true] at h
  obtain ⟨h1, h2⟩ := h
  rw [beq_iff_eq] at h1
  have h2' : '\n' ∉ s.data.dropLast := by simpa using h2
  have hne : s.data ≠ [] := by
    intro hnil
    rw [hnil] at h1
    simp at h1
  have hgl : s.data.getLast hne = '\n' := by
    have hq := List.getLast?_eq_getLast s.data hne
    rw [h1] at hq
    exact (Option.some.inj hq).symm
  refine ⟨s.data.dropLast, ?_, h2'⟩
  conv_lhs => rw [← List.dropLast_append_getLast hne]
  rw [hgl]

/-! ### Round trip: `readlines` after writing a list of well-formed lines -/

theorem splitLinesAcc_line (t rest : List Char) (h : '\n' ∉ t) :
    ∀ acc, splitLinesAcc (t ++ '\n' :: rest) acc =
      (acc.reverse ++ (t ++ ['\n'])) :: splitLinesAcc rest [] := by
  induction t with
  | nil => intro acc; simp [splitLinesAcc]
  | cons c cs ih =>
    intro acc
    have hc : ¬ c = '\n' := fun e => h (by simp [e])
    rw [List.cons_append]
    show splitLinesAcc (c :: (cs ++ '\n' :: rest)) acc = _
    rw [splitLinesAcc, if_neg hc, ih (fun hm => h (by simp [hm])) (c :: acc)]
    simp

theorem pyReadlines_concatLines (ls : List String)
    (h : ∀ l ∈ ls, isLineStr l = true) :
    pyReadlines (concatLines ls) = ls := by
  induction ls with
  | nil => simp [pyReadlines, concatLines, splitLinesAcc]
  | cons x xs ih =>
    obtain ⟨u, hu, hun⟩ := isLineStr_elim (h x (by simp))
    have hdata : (concatLines (x :: xs)).data = u ++ '\n' :: (concatLines xs).data := by
      simp [concatLines, String.data_append, hu]
    rw [pyReadlines, hdata, splitLinesAcc_line u _ hun []]
    have htail := ih (fun l hl => h l (by simp [hl]))
    rw [pyReadlines] at htail
    simp only [List.reverse_nil, List.nil_append, List.map_cons, htail, ← hu, strMk_data]

/-! ### Filesystem lemmas -/

theorem find?_setAssoc_self (l : List (String × String)) (p v : String) :
    (setAssoc l p v).find? (fun kv => kv.1 = p) = some (p, v) := by
  induction l with
  | nil => simp [setAssoc, List.find?]
  | cons kv t ih =>
    obtain ⟨q, w⟩ := kv
    by_cases h : q = p
    · simp [setAssoc, h, List.find?]
    · simp [setAssoc, h, List.find?, ih]

theorem find?_setAssoc_ne (l : List (String × String)) (p v q : String) (h : q ≠ p) :
    (setAssoc l p v).find? (fun kv => kv.1 = q) = l.find? (fun kv => kv.1 = q) := by
  induction l with
  | nil => simp [setAssoc, List.find?, Ne.symm h]
  | cons kv t ih =>
    obtain ⟨r, w⟩ := kv
    by_cases hr : r = p
    · subst hr
      simp [setAssoc, List.find?, Ne.symm h]
    · by_cases hq : r = q
      · subst hq
        simp [setAssoc, hr, List.find?]
      · simp [setAssoc, hr, List.find?, hq, ih]

theorem getFile_setFile_self (fs : FS) (p v : String) :
    (fs.setFile p v).getFile p = some v := by
  simp [FS.setFile, FS.getFile, find?_setAssoc_self]

theorem getFile_setFile_ne (fs : FS) (p v q : String) (h : q ≠ p) :
    (fs.setFile p v).getFile q = fs.getFile q := by
  simp [FS.setFile, FS.getFile, find?_setAssoc_ne _ _ _ _ h]

theorem getFile_mkdir (fs : FS) (p q : String) :
    (fs.mkdir p).getFile q = fs.getFile q := rfl

theorem any_setAssoc_key (l : List (String × String)) (p v q : String) :
    (setAssoc l p v).any (fun kv => kv.1 = q) =
      (l.any (fun kv => kv.1 = q) || decide (p = q)) := by
  induction l with
  | nil => simp [setAssoc]
  | cons kv t ih =>
    obtain ⟨r, w⟩ := kv
    by_cases hr : r = p
    · subst hr
      by_cases hq : r = q <;> simp [setAssoc, hq]
    · simp [setAssoc, hr, ih, Bool.or_assoc]

theorem existsPath_setFile_self (fs : FS) (p v : String) :
    (fs.setFile p v).existsPath p = true := by
  simp [FS.setFile, FS.existsPath, any_setAssoc_key]

theorem existsPath_setFile_mono (fs : FS) (p v q : String)
    (h : fs.existsPath q = true) : (fs.setFile p v).existsPath q = true := by
  simp only [FS.setFile, FS.existsPath] at h ⊢
  rw [any_setAssoc_key]
  rcases Bool.or_eq_true_iff.mp h with h | h
  · rw [h]
    simp
  · rw [h]
    simp

theorem existsPath_mkdir_self (fs : FS) (p : String) :
    (fs.mkdir p).existsPath p = true := by
  simp [FS.mkdir, FS.existsPath]

theorem existsPath_mkdir_mono (fs : FS) (p q : String)
    (h : fs.existsPath q = true) : (fs.mkdir p).existsPath q = true := by
  simp only [FS.mkdir, FS.existsPath] at h ⊢
  rcases Bool.or_eq_true_iff.mp h with h | h
  · rw [List.contains_cons, h]
    simp
  · rw [h]
    simp

/-! ### Path lemmas -/

theorem pyJoin_eq (a b : String) (ha : ¬ a = "") (hs : pyEndswith a "/" = false) :
    pyJoin a b = a ++ "/" ++ b := by
  simp [pyJoin, ha, hs]

theorem pyEndswith_slash_concat (x m : String) (hm : m.data ≠ []) (hsl : '/' ∉ m.data) :
    pyEndswith (x ++ m) "/" = false := by
  rw [Bool.eq_false_iff]
  intro hc
  have hsuf : ['/'] <:+ (x ++ m).data := by
    have : (("/" : String).data).isSuffixOf (x ++ m).data = true := hc
    exact List.isSuffixOf_iff_suffix.mp this
  obtain ⟨t, ht⟩ := hsuf
  have h1 : (t ++ ['/']).getLast? = some '/' := by simp
  rw [ht, String.data_append, List.getLast?_append_of_ne_nil _ hm] at h1
  have h2 : '/' ∈ m.data.getLast? := h1
  obtain ⟨hne, he⟩ := List.mem_getLast?_eq_getLast h2
  exact hsl (he ▸ List.getLast_mem hne)

theorem str_ne_of_data_length {s t : String} (h : s.data.length ≠ t.data.length) :
    s ≠ t := fun e => h (by rw [e])

/-! ### Hyphen splitting -/

theorem splitHyphenAux_no_hyphen : ∀ (cs acc : List Char), '-' ∉ cs →
    splitHyphenAux cs acc = [acc.reverse ++ cs] := by
  intro cs
  induction cs with
  | nil => intro acc _; simp [splitHyphenAux]
  | cons c cs ih =>
    intro acc h
    have hc : ¬ c = '-' := fun e => h (by simp [e])
    rw [splitHyphenAux, if_neg hc, ih (c :: acc) (fun hm => h (by simp [hm]))]
    simp

theorem pyIsAlnum_no_hyphen {s : String} (h : pyIsAlnum s = true) : '-' ∉ s.data := by
  intro hm
  unfold pyIsAlnum at h
  rw [Bool.and_eq_true] at h
  have := List.all_eq_true.mp h.2 _ hm
  exact absurd this (by decide)

theorem pyIsAlnum_false_of_hyphen {s : String} (hm : '-' ∈ s.data) :
    pyIsAlnum s = false := by
  rw [Bool.eq_false_iff]
  intro hc
  exact pyIsAlnum_no_hyphen hc hm

/-! ## Claim C7: validation and camel-casing of "MyModule2" -/

/-- C7, counterexample: the claim asserts that `get_camel_name "MyModule2"`
returns `"MyModule2"`, but Python `str.capitalize` lowercases every character
after the first, so the script actually returns `"Mymodule2"`. -/
theorem C7_counterexample : get_camel_name "MyModule2" ≠ "MyModule2" := by decide

/-- C7, amended: `"MyModule2"` passes the `isalnum` validation of `main`, and
`get_camel_name` capitalizes its single hyphen-free segment — uppercasing the
first character and lowercasing the rest — returning `"Mymodule2"`. -/
theorem C7_MyModule2_accepted_and_camel :
    pyIsAlnum "MyModule2" = true ∧ get_camel_name "MyModule2" = "Mymodule2" := by
  constructor
  · decide
  · decide

/-! ## Claim C9: the description option has no influence -/

/-- C9: the parsed `--description` value influences neither the final
filesystem nor any generated or patched file: two runs of `main` that differ
only in the description are identical. -/
theorem C9_description_no_influence (fs : FS) (root : String) (m : Option String)
    (d1 d2 : String) : main fs root m d1 = main fs root m d2 := rfl

/-! ## Claim C6: rejection of missing or non-alphanumeric module names -/

/-- C6, counterexample: for the non-alphanumeric name `"my-module!"` the script
prints only the rejection message — the usage text is printed only in the
missing-module branch, contrary to the claim. No filesystem mutation occurs. -/
theorem C6_counterexample :
    main ⟨[], []⟩ "ct" (some "my-module!") "d" =
      some (⟨[], []⟩, ["Module name must be alphanumeric: my-module!"]) ∧
    usageText ∉ ["Module name must be alphanumeric: my-module!"] := by
  constructor
  · decide
  · decide

/-- C6, amended: a missing (or empty) module name prints the error message plus
the usage text; a nonempty non-alphanumeric name prints only the rejection
message. In every such case `main` returns the filesystem unchanged: no
directory is created and no file is written or patched. -/
theorem C6_invalid_module_rejected :
    (∀ (fs : FS) (root d : String),
       main fs root none d = some (fs, ["Module must be specified.", usageText])) ∧
    (∀ (fs : FS) (root d : String),
       main fs root (some "") d = some (fs, ["Module must be specified.", usageText])) ∧
    (∀ (fs : FS) (root d s : String), ¬ s = "" → pyIsAlnum s = false →
       main fs root (some s) d = some (fs, ["Module name must be alphanumeric: " ++ s])) := by
  refine ⟨fun fs root d => rfl, fun fs root d => rfl, fun fs root d s hs hv => ?_⟩
  simp [main, hs, hv]

/-- C6, witness for the amended theorem at the concrete name `"my!"`. -/
theorem C6_witness :
    ¬ ("my!" : String) = "" ∧ pyIsAlnum "my!" = false ∧
    main ⟨["d"], [("f", "x")]⟩ "ct" (some "my!") "dsc" =
      some (⟨["d"], [("f", "x")]⟩, ["Module name must be alphanumeric: my!"]) :=
  ⟨by decide, by decide,
    C6_invalid_module_rejected.2.2 ⟨["d"], [("f", "x")]⟩ "ct" "dsc" "my!"
      (by decide) (by decide)⟩

/-! ## Claim C8: the two template writers -/

/-- C8, counterexample: when the module CMakeLists.txt already exists,
`write_cmake` returns without printing anything — the claim's "prints a skip
message" is false for this writer (only `write_module_cpp` prints one). -/
theorem C8_counterexample :
    write_cmake ⟨[], [("p/CMakeLists.txt", "x")]⟩ "p" "Bar" =
      (⟨[], [("p/CMakeLists.txt", "x")]⟩, []) := by decide

/-- C8, amended: if its target file already exists, `write_cmake` skips
silently and `write_module_cpp` skips with a "File already exists" message;
in both cases the filesystem is unchanged. Otherwise each writes its rendered
template and reports "Creating ...". -/
theorem C8_template_writers :
    (∀ (fs : FS) (p c : String), fs.existsPath (pyJoin p "CMakeLists.txt") = true →
       write_cmake fs p c = (fs, [])) ∧
    (∀ (fs : FS) (p c : String), fs.existsPath (pyJoin p "CMakeLists.txt") = false →
       write_cmake fs p c =
         (fs.setFile (pyJoin p "CMakeLists.txt") (cmakeTemplate c),
          ["Creating " ++ pyJoin p "CMakeLists.txt" ++ "..."])) ∧
    (∀ (fs : FS) (p m c ns : String),
       fs.existsPath (pyJoin p (c ++ "TidyModule.cpp")) = true →
       write_module_cpp fs p m c ns =
         (fs, ["File already exists: " ++ pyJoin p (c ++ "TidyModule.cpp")])) ∧
    (∀ (fs : FS) (p m c ns : String),
       fs.existsPath (pyJoin p (c ++ "TidyModule.cpp")) = false →
       write_module_cpp fs p m c ns =
         (fs.setFile (pyJoin p (c ++ "TidyModule.cpp")) (moduleCppTemplate m c ns),
          ["Creating " ++ pyJoin p (c ++ "TidyModule.cpp") ++ "..."])) := by
  refine ⟨fun fs p c h => ?_, fun fs p c h => ?_,
          fun fs p m c ns h => ?_, fun fs p m c ns h => ?_⟩
  · simp [write_cmake, h]
  · simp [write_cmake, h]
  · simp [write_module_cpp, h]
  · simp [write_module_cpp, h]

/-- C8, witness: each branch of the amended theorem applied at concrete inputs. -/
theorem C8_witness :
    write_cmake ⟨[], [("q/CMakeLists.txt", "y")]⟩ "q" "Foo" =
      (⟨[], [("q/CMakeLists.txt", "y")]⟩, []) ∧
    write_cmake ⟨[], []⟩ "q" "Foo" =
      (FS.setFile ⟨[], []⟩ (pyJoin "q" "CMakeLists.txt") (cmakeTemplate "Foo"),
       ["Creating " ++ pyJoin "q" "CMakeLists.txt" ++ "..."]) ∧
    write_module_cpp ⟨[], [("q/FooTidyModule.cpp", "y")]⟩ "q" "foo" "Foo" "foo" =
      (⟨[], [("q/FooTidyModule.cpp", "y")]⟩,
       ["File already exists: " ++ pyJoin "q" ("Foo" ++ "TidyModule.cpp")]) ∧
    write_module_cpp ⟨[], []⟩ "q" "foo" "Foo" "foo" =
      (FS.setFile ⟨[], []⟩ (pyJoin "q" ("Foo" ++ "TidyModule.cpp"))
         (moduleCppTemplate "foo" "Foo" "foo"),
       ["Creating " ++ pyJoin "q" ("Foo" ++ "TidyModule.cpp") ++ "..."]) :=
  ⟨C8_template_writers.1 _ "q" "Foo" (by decide),
   C8_template_writers.2.1 _ "q" "Foo" (by decide),
   C8_template_writers.2.2.1 _ "q" "foo" "Foo" "foo" (by decide),
   C8_template_writers.2.2.2 _ "q" "foo" "Foo" "foo" (by decide)⟩

/-! ## Claim C10: hyphenated names are rejected, so multi-segment camel-casing
is unreachable from the entry point -/

/-- C10: a module name containing a hyphen fails `str.isalnum`, so `main`
prints the alphanumeric-rejection message and leaves the filesystem untouched;
consequently, for every name that passes validation the hyphen split of
`get_camel_name` degenerates to the one-segment list, so its multi-segment
branch is unreachable from the entry point. -/
theorem C10_hyphen_unreachable :
    (∀ (fs : FS) (root d s : String), '-' ∈ s.data →
       main fs root (some s) d =
         some (fs, ["Module name must be alphanumeric: " ++ s])) ∧
    (∀ s : String, pyIsAlnum s = true → pySplitHyphen s = [s]) := by
  constructor
  · intro fs root d s hm
    have hne : ¬ s = "" := by
      intro he
      subst he
      simp at hm
    exact C6_invalid_module_rejected.2.2 fs root d s hne (pyIsAlnum_false_of_hyphen hm)
  · intro s h
    have hnh : '-' ∉ s.data := pyIsAlnum_no_hyphen h
    unfold pySplitHyphen
    rw [splitHyphenAux_no_hyphen s.data [] hnh]
    simp [strMk_data]

/-- C10, witness: the hyphenated name `"my-module"` is rejected with no
filesystem change, and the accepted name `"misc"` splits into one segment. -/
theorem C10_witness :
    ('-' ∈ ("my-module" : String).data) ∧
    main ⟨["d0"], [("f0", "c0")]⟩ "ct" (some "my-module") "dsc" =
      some (⟨["d0"], [("f0", "c0")]⟩,
            ["Module name must be alphanumeric: my-module"]) ∧
    pyIsAlnum "misc" = true ∧ pySplitHyphen "misc" = ["misc"] :=
  ⟨by decide,
   C10_hyphen_unreachable.1 ⟨["d0"], [("f0", "c0")]⟩ "ct" "dsc" "my-module" (by decide),
   by decide,
   C10_hyphen_unreachable.2 "misc" (by decide)⟩

/-! ## Claim C5: the merges only insert, never remove, alter or reorder lines -/

/-- C5: for every input line list, the output of `update_clang_tidy_cmake`'s
line transformation keeps every original line in place and order, inserting at
most the subdirectory candidate and the library candidate at one point each;
likewise `update_clang_tidy_force_linker` inserts at most the fixed five-line
anchor block. -/
theorem C5_frame_preservation :
    (∀ (lines : List String) (m c : String), ∃ x y z o1 o2,
       lines = x ++ y ++ z ∧
       update_cmake_lines lines m c = x ++ o1 ++ y ++ o2 ++ z ∧
       (o1 = [] ∨ o1 = [subdirCand m]) ∧ (o2 = [] ∨ o2 = [libCand c])) ∧
    (∀ (lines : List String) (c : String), ∃ x y o,
       lines = x ++ y ∧
       update_force_linker_lines lines c = x ++ o ++ y ∧
       (o = [] ∨ o = linkLinesOf c)) := by
  constructor
  · intro lines m c
    rcases hA : spanUntil (fun l => pyStartswith l "add_subdirectory(") lines with ⟨a1, a2⟩
    rcases hB : cmakeSubdirScan (subdirCand m) false a2 with ⟨b1, b2, add1⟩
    rcases hC : consumeThrough (fun l => pyStartswith l "set(ALL_CLANG_TIDY_CHECKS") b2
      with ⟨c1, c2⟩
    rcases hD : cmakeLibScan (libCand c) c2 with ⟨d1, d2, add2⟩
    have h1 : a1 ++ a2 = lines := by
      have := spanUntil_cat (fun l => pyStartswith l "add_subdirectory(") lines
      rwa [hA] at this
    have h2 : b1 ++ b2 = a2 := by
      have := subdirScan_cat (subdirCand m) false a2
      rwa [hB] at this
    have h3 : c1 ++ c2 = b2 := by
      have := consumeThrough_cat (fun l => pyStartswith l "set(ALL_CLANG_TIDY_CHECKS") b2
      rwa [hC] at this
    have h4 : d1 ++ d2 = c2 := by
      have := libScan_cat (libCand c) c2
      rwa [hD] at this
    refine ⟨a1 ++ b1, c1 ++ d1, d2,
      (if add1 then [subdirCand m] else []), (if add2 then [libCand c] else []),
      ?_, ?_, ?_, ?_⟩
    · rw [← h1, ← h2, ← h3, ← h4]
      simp [List.append_assoc]
    · simp only [update_cmake_lines, cmakeAfterSubdirPhase, cmakeLibPhase, hA, hB, hC, hD]
      simp [List.append_assoc]
    · cases add1
      · exact Or.inl rfl
      · exact Or.inr rfl
    · cases add2
      · exact Or.inl rfl
      · exact Or.inr rfl
  · intro lines c
    rcases hA : spanUntil (fun l => pyStartswith l "// This anchor ") lines with ⟨a1, a2⟩
    rcases hB : forceLinkerScan (anchorCand c) false a2 with ⟨b1, b2, add⟩
    have h1 : a1 ++ a2 = lines := by
      have := spanUntil_cat (fun l => pyStartswith l "// This anchor ") lines
      rwa [hA] at this
    have h2 : b1 ++ b2 = a2 := by
      have := flScan_cat (anchorCand c) false a2
      rwa [hB] at this
    refine ⟨a1 ++ b1, b2, (if add then linkLinesOf c else []), ?_, ?_, ?_⟩
    · rw [← h1, ← h2]
      simp [List.append_assoc]
    · simp only [update_force_linker_lines, hA, hB]
    · cases add
      · exact Or.inl rfl
      · exact Or.inr rfl

/-! ### Facts about the candidate lines -/

theorem subdirCand_eq (m : String) :
    subdirCand m = "add_subdirectory(" ++ (m ++ ")\n") := by
  unfold subdirCand
  rw [String.append_assoc]

theorem subdirCand_sw_add (m : String) :
    pyStartswith (subdirCand m) "add_subdirectory(" = true := by
  rw [subdirCand_eq]
  exact pyStartswith_append_self _ _

theorem subdirCand_sw_if (m : String) : pyStartswith (subdirCand m) "if(" = false := by
  rw [subdirCand_eq]
  exact pyStartswith_append_lit_false _ _ _ (by decide)

theorem subdirCand_sw_setall (m : String) :
    pyStartswith (subdirCand m) "set(ALL_CLANG_TIDY_CHECKS" = false := by
  rw [subdirCand_eq]
  exact pyStartswith_append_lit_false _ _ _ (by decide)

theorem spanUntil_stop_all (p : String → Bool) (pre R : List String)
    (hpre : ∀ l ∈ pre, p l = false) (hR : R ≠ [])
    (hhead : ∀ x, R.head? = some x → p x = true) :
    spanUntil p (pre ++ R) = (pre, R) := by
  match R with
  | [] => exact absurd rfl hR
  | x :: rest => exact spanUntil_stop p pre x rest hpre (hhead x rfl)

/-! ## Claim C2: insertion immediately before the first `>=` line -/

/-- C2: within the subdirectory region, `update_clang_tidy_cmake` inserts the
candidate line immediately before the first region line that compares `>=` to
it (first conjunct), and immediately before the `set(ALL_CLANG_TIDY_CHECKS`
end-of-region marker when no region line compares `>=` (second conjunct); all
lines before the insertion point are kept, and the remainder is processed by
the later phases untouched. -/
theorem C2_insert_before_first_ge :
    (∀ (pre T Z : List String) (l0 m camel : String),
       (∀ l ∈ pre, pyStartswith l "add_subdirectory(" = false) →
       (∀ l ∈ T, pyStartswith l "add_subdirectory(" = true ∧
          pyStartswith l "if(" = false ∧
          pyStartswith l "set(ALL_CLANG_TIDY_CHECKS" = false ∧ pyStrGe l (subdirCand m) = false) →
       pyStartswith l0 "add_subdirectory(" = true →
       pyStartswith l0 "if(" = false →
       pyStartswith l0 "set(ALL_CLANG_TIDY_CHECKS" = false →
       ¬ l0 = subdirCand m → pyStrGe l0 (subdirCand m) = true →
       update_cmake_lines (pre ++ (T ++ l0 :: Z)) m camel =
         pre ++ T ++ subdirCand m :: cmakeAfterSubdirPhase camel (l0 :: Z)) ∧
    (∀ (pre T Z : List String) (marker m camel : String),
       (∀ l ∈ pre, pyStartswith l "add_subdirectory(" = false) →
       (∀ l ∈ T, pyStartswith l "add_subdirectory(" = true ∧
          pyStartswith l "if(" = false ∧
          pyStartswith l "set(ALL_CLANG_TIDY_CHECKS" = false ∧ pyStrGe l (subdirCand m) = false) →
       T ≠ [] →
       pyStartswith marker "if(" = false →
       pyStartswith marker "set(ALL_CLANG_TIDY_CHECKS" = true →
       update_cmake_lines (pre ++ (T ++ marker :: Z)) m camel =
         pre ++ T ++ subdirCand m :: cmakeAfterSubdirPhase camel (marker :: Z)) := by
  constructor
  · intro pre T Z l0 m camel hpre hT hl0add hl0if hl0set hl0ne hl0ge
    have hspan : spanUntil (fun l => pyStartswith l "add_subdirectory(")
        (pre ++ (T ++ l0 :: Z)) = (pre, T ++ l0 :: Z) := by
      apply spanUntil_stop_all _ _ _ hpre (by simp)
      intro x hx
      match T, hx with
      | [], hx => simp at hx; subst hx; exact hl0add
      | t :: ts, hx => simp at hx; subst hx; exact (hT t (by simp)).1
    have hscan : cmakeSubdirScan (subdirCand m) false (T ++ l0 :: Z) = (T, l0 :: Z, true) := by
      rw [subdirScan_consume_front _ T (l0 :: Z)
        (fun l hl => ⟨(hT l hl).2.1, (hT l hl).2.2.1, (hT l hl).2.2.2⟩)]
      rw [subdirScan_stop_ge _ _ _ hl0if hl0set hl0ne hl0ge]
      simp
    simp only [update_cmake_lines, hspan, hscan]
    simp [List.append_assoc]
  · intro pre T Z marker m camel hpre hT hTne hmif hmset
    have hspan : spanUntil (fun l => pyStartswith l "add_subdirectory(")
        (pre ++ (T ++ marker :: Z)) = (pre, T ++ marker :: Z) := by
      apply spanUntil_stop_all _ _ _ hpre (by simp)
      intro x hx
      match T, hx with
      | [], hx => exact absurd rfl hTne
      | t :: ts, hx => simp at hx; subst hx; exact (hT t (by simp)).1
    have hscan : cmakeSubdirScan (subdirCand m) false (T ++ marker :: Z) = (T, marker :: Z, true) := by
      rw [subdirScan_consume_front _ T (marker :: Z)
        (fun l hl => ⟨(hT l hl).2.1, (hT l hl).2.2.1, (hT l hl).2.2.2⟩)]
      rw [subdirScan_stop_marker _ _ _ hmif hmset]
      simp
    simp only [update_cmake_lines, hspan, hscan]
    simp [List.append_assoc]

/-- C2, witness: the spec's example — inserting `add_subdirectory(bar)` into a
region holding `alpha` and `zeta` places it between them, and the fully
evaluated file confirms `[alpha, bar, zeta, marker, library line, close]`. -/
theorem C2_witness :
    update_cmake_lines
        ([] ++ (["add_subdirectory(alpha)\n"] ++ "add_subdirectory(zeta)\n" ::
            ["set(ALL_CLANG_TIDY_CHECKS\n", "  )\n"])) "bar" "Bar" =
      [] ++ ["add_subdirectory(alpha)\n"] ++
        subdirCand "bar" ::
          cmakeAfterSubdirPhase "Bar"
            ("add_subdirectory(zeta)\n" :: ["set(ALL_CLANG_TIDY_CHECKS\n", "  )\n"]) ∧
    [] ++ ["add_subdirectory(alpha)\n"] ++
        subdirCand "bar" ::
          cmakeAfterSubdirPhase "Bar"
            ("add_subdirectory(zeta)\n" :: ["set(ALL_CLANG_TIDY_CHECKS\n", "  )\n"]) =
      ["add_subdirectory(alpha)\n", "add_subdirectory(bar)\n",
       "add_subdirectory(zeta)\n", "set(ALL_CLANG_TIDY_CHECKS\n",
       "  clangTidyBarModule\n", "  )\n"] :=
  ⟨C2_insert_before_first_ge.1 [] ["add_subdirectory(alpha)\n"] _ _ "bar" "Bar"
     (by decide) (by decide) (by decide) (by decide) (by decide) (by decide) (by decide),
   by decide⟩

/-! ### Facts about the library and anchor candidate lines -/

theorem libCand_eq (c : String) : libCand c = "  clangTidy" ++ (c ++ "Module\n") := by
  unfold libCand
  rw [String.append_assoc]

theorem libCand_no_paren (c : String) (h : ')' ∉ c.data) :
    pyContainsChar (libCand c) ')' = false := by
  rw [libCand_eq]
  simp only [pyContainsChar, String.data_append]
  have h1 : ')' ∉ ("  clangTidy" : String).data := by decide
  have h2 : ')' ∉ ("Module\n" : String).data := by decide
  simp [h1, h2, h]

theorem anchorCand_eq (c : String) :
    anchorCand c =
      "// This anchor is used to force the linker to link the " ++ (c ++ "Module.\n") := by
  unfold anchorCand
  rw [String.append_assoc]

theorem anchorCand_sw_anchor (c : String) :
    pyStartswith (anchorCand c) "// This anchor " = true := by
  rw [anchorCand_eq]
  exact pyStartswith_append_lit _ _ _ (by decide)

theorem anchorCand_sw_hashif (c : String) :
    pyStartswith (anchorCand c) "#if" = false := by
  rw [anchorCand_eq]
  exact pyStartswith_append_lit_false _ _ _ (by decide)

theorem anchorCand_sw_close (c : String) :
    pyStartswith (anchorCand c) "\x7d // namespace" = false := by
  rw [anchorCand_eq]
  exact pyStartswith_append_lit_false _ _ _ (by decide)

/-! ## Claim C3: guarded blocks are skipped as opaque spans -/

/-- C3, counterexample: when the first region line lies inside a guard block,
the scan's entry point lands inside the block and the candidate is inserted
there — between `if(...)` and its `endif()` — contradicting the claim that the
candidate is never placed inside a conditional block. -/
theorem C3_counterexample :
    update_cmake_lines
        ["if(CLANG_TIDY_ENABLE_STATIC_ANALYZER)\n", "add_subdirectory(zeta)\n",
         "endif()\n"] "bar" "Bar" =
      ["if(CLANG_TIDY_ENABLE_STATIC_ANALYZER)\n", "add_subdirectory(bar)\n",
       "add_subdirectory(zeta)\n", "endif()\n", "  clangTidyBarModule\n"] := by decide

/-- C3, amended: every guard block whose opening line is reached by the merge
scan itself is skipped as an opaque span — its lines are copied unchanged, no
comparison with the candidate happens inside it, and the scan continues right
after the closing line; this holds for `if(`/`endif()` blocks in the CMake scan
and `#if`/`#endif` blocks in the force-linker scan. (If the region's entry
marker is first found inside a guarded block, as in the counterexample, the
candidate can still land inside that block.) -/
theorem C3_guard_blocks_skipped :
    (∀ (cand gif gend : String) (body X : List String),
       pyStartswith gif "if(" = true →
       (∀ l ∈ body, pyStartswith l "endif()" = false) →
       pyStartswith gend "endif()" = true →
       cmakeSubdirScan cand false (gif :: (body ++ gend :: X)) =
         (gif :: (body ++ gend :: (cmakeSubdirScan cand false X).1),
          (cmakeSubdirScan cand false X).2.1, (cmakeSubdirScan cand false X).2.2)) ∧
    (∀ (first gif gend : String) (body X : List String),
       pyStartswith gif "#if" = true →
       (∀ l ∈ body, pyStartswith l "#endif" = false) →
       pyStartswith gend "#endif" = true →
       forceLinkerScan first false (gif :: (body ++ gend :: X)) =
         (gif :: (body ++ gend :: (forceLinkerScan first false X).1),
          (forceLinkerScan first false X).2.1, (forceLinkerScan first false X).2.2)) :=
  ⟨subdirScan_skip_block, flScan_skip_block⟩

/-- C3, witness: both skip equations applied at concrete guard blocks. -/
theorem C3_witness :
    cmakeSubdirScan "add_subdirectory(bar)\n" false
        ("if(FOO)\n" :: (["add_subdirectory(zeta)\n"] ++ "endif()\n" :: [])) =
      ("if(FOO)\n" :: (["add_subdirectory(zeta)\n"] ++ "endif()\n" ::
          (cmakeSubdirScan "add_subdirectory(bar)\n" false []).1),
       (cmakeSubdirScan "add_subdirectory(bar)\n" false []).2.1,
       (cmakeSubdirScan "add_subdirectory(bar)\n" false []).2.2) ∧
    forceLinkerScan (anchorCand "Bar") false
        ("#if FOO\n" :: (["// This anchor is used to force the linker to link the ZModule.\n"]
          ++ "#endif\n" :: [])) =
      ("#if FOO\n" :: (["// This anchor is used to force the linker to link the ZModule.\n"]
          ++ "#endif\n" :: (forceLinkerScan (anchorCand "Bar") false []).1),
       (forceLinkerScan (anchorCand "Bar") false []).2.1,
       (forceLinkerScan (anchorCand "Bar") false []).2.2) :=
  ⟨C3_guard_blocks_skipped.1 "add_subdirectory(bar)\n" "if(FOO)\n" "endif()\n"
     ["add_subdirectory(zeta)\n"] [] (by decide) (by decide) (by decide),
   C3_guard_blocks_skipped.2 (anchorCand "Bar") "#if FOO\n" "#endif\n"
     ["// This anchor is used to force the linker to link the ZModule.\n"] []
     (by decide) (by decide) (by decide)⟩

/-! ## Claim C4: a candidate already present means no write -/

/-- C4: when the candidate lines already occur at the scan's stopping points,
both merge routines report the no-op on standard output and perform no write:
the returned filesystem is the one passed in, byte-for-byte. -/
theorem C4_duplicate_no_write :
    (∀ (fs : FS) (root m camel content marker : String)
       (pre T Z1 mid2 R : List String),
       fs.getFile (pyJoin root "CMakeLists.txt") = some content →
       pyReadlines content =
         pre ++ (T ++ subdirCand m ::
           ((Z1 ++ marker :: (mid2 ++ libCand camel :: R)) : List String)) →
       (∀ l ∈ pre, pyStartswith l "add_subdirectory(" = false) →
       (∀ l ∈ T, pyStartswith l "add_subdirectory(" = true ∧
          pyStartswith l "if(" = false ∧
          pyStartswith l "set(ALL_CLANG_TIDY_CHECKS" = false ∧
          pyStrGe l (subdirCand m) = false) →
       (∀ l ∈ Z1, pyStartswith l "set(ALL_CLANG_TIDY_CHECKS" = false) →
       pyStartswith marker "set(ALL_CLANG_TIDY_CHECKS" = true →
       (∀ l ∈ mid2, pyContainsChar l ')' = false ∧
          pyStrGe l (libCand camel) = false) →
       (')' ∉ camel.data) →
       update_clang_tidy_cmake fs root m camel =
         some (fs, ["Module already included: " ++ pyJoin root "CMakeLists.txt"])) ∧
    (∀ (fs : FS) (root camel content : String) (P B R : List String),
       fs.getFile (pyJoin root "ClangTidyForceLinker.h") = some content →
       pyReadlines content = P ++ (B ++ anchorCand camel :: R) →
       (∀ l ∈ P, pyStartswith l "// This anchor " = false) →
       (∀ x, B.head? = some x → pyStartswith x "// This anchor " = true) →
       (∀ l ∈ B, pyStartswith l "#if" = false ∧
          pyStartswith l "\x7d // namespace" = false ∧
          (pyStartswith l "// This anchor " = false ∨
            pyStrGe l (anchorCand camel) = false)) →
       update_clang_tidy_force_linker fs root camel =
         some (fs, ["Module already has forced link: "
           ++ pyJoin root "ClangTidyForceLinker.h"])) ∧
    (∀ (fs : FS) (root m camel content : String),
       fs.getFile (pyJoin root "CMakeLists.txt") = some content →
       update_cmake_lines (pyReadlines content) m camel = pyReadlines content →
       update_clang_tidy_cmake fs root m camel =
         some (fs, ["Module already included: " ++ pyJoin root "CMakeLists.txt"])) ∧
    (∀ (fs : FS) (root camel content : String),
       fs.getFile (pyJoin root "ClangTidyForceLinker.h") = some content →
       update_force_linker_lines (pyReadlines content) camel = pyReadlines content →
       update_clang_tidy_force_linker fs root camel =
         some (fs, ["Module already has forced link: "
           ++ pyJoin root "ClangTidyForceLinker.h"])) := by
  refine ⟨?_, ?_, ?_, ?_⟩
  case refine_3 =>
    intro fs root m camel content hget hout
    simp only [update_clang_tidy_cmake, hget]
    rw [if_pos hout.symm]
  case refine_4 =>
    intro fs root camel content hget hout
    simp only [update_clang_tidy_force_linker, hget]
    rw [if_pos hout.symm]
  · intro fs root m camel content marker pre T Z1 mid2 R hget hlines hpre hT hZ1 hmark hmid hpar
    have hspan : spanUntil (fun l => pyStartswith l "add_subdirectory(")
        (pre ++ (T ++ subdirCand m :: (Z1 ++ marker :: (mid2 ++ libCand camel :: R)))) =
        (pre, T ++ subdirCand m :: (Z1 ++ marker :: (mid2 ++ libCand camel :: R))) := by
      apply spanUntil_stop_all _ _ _ hpre (by simp)
      intro x hx
      match T, hx with
      | [], hx => simp at hx; subst hx; exact subdirCand_sw_add m
      | t :: ts, hx => simp at hx; subst hx; exact (hT t (by simp)).1
    have hscan : cmakeSubdirScan (subdirCand m) false
        (T ++ subdirCand m :: (Z1 ++ marker :: (mid2 ++ libCand camel :: R))) =
        (T, subdirCand m :: (Z1 ++ marker :: (mid2 ++ libCand camel :: R)), false) := by
      rw [subdirScan_consume_front _ T _
        (fun l hl => ⟨(hT l hl).2.1, (hT l hl).2.2.1, (hT l hl).2.2.2⟩)]
      rw [subdirScan_stop_eq _ _ _ (subdirCand_sw_if m) (subdirCand_sw_setall m) rfl]
      simp
    have hcons : consumeThrough (fun l => pyStartswith l "set(ALL_CLANG_TIDY_CHECKS")
        (subdirCand m :: (Z1 ++ marker :: (mid2 ++ libCand camel :: R))) =
        ((subdirCand m :: Z1) ++ [marker], mid2 ++ libCand camel :: R) := by
      have := consumeThrough_stop (fun l => pyStartswith l "set(ALL_CLANG_TIDY_CHECKS")
        (subdirCand m :: Z1) marker (mid2 ++ libCand camel :: R) ?hp hmark
      · simpa using this
      case hp =>
        intro l hl
        rcases List.mem_cons.mp hl with h | h
        · subst h; exact subdirCand_sw_setall m
        · exact hZ1 l h
    have hlib : cmakeLibScan (libCand camel) (mid2 ++ libCand camel :: R) =
        (mid2, libCand camel :: R, false) := by
      rw [libScan_consume_front _ mid2 _ hmid]
      rw [libScan_stop_eq _ _ _ (libCand_no_paren camel hpar) rfl]
      simp
    have hout : update_cmake_lines (pyReadlines content) m camel = pyReadlines content := by
      rw [hlines]
      simp only [update_cmake_lines, cmakeAfterSubdirPhase, cmakeLibPhase,
        hspan, hscan, hcons, hlib]
      simp [List.append_assoc]
    simp only [update_clang_tidy_cmake, hget]
    rw [if_pos hout.symm]
  · intro fs root camel content P B R hget hlines hP hBhead hB
    have hspan : spanUntil (fun l => pyStartswith l "// This anchor ")
        (P ++ (B ++ anchorCand camel :: R)) = (P, B ++ anchorCand camel :: R) := by
      apply spanUntil_stop_all _ _ _ hP (by simp)
      intro x hx
      match B, hx with
      | [], hx => simp at hx; subst hx; exact anchorCand_sw_anchor camel
      | b :: bs, hx => simp at hx; subst hx; exact hBhead b rfl
    have hscan : forceLinkerScan (anchorCand camel) false (B ++ anchorCand camel :: R) =
        (B, anchorCand camel :: R, false) := by
      rw [flScan_consume_front _ B _ hB]
      rw [flScan_stop_eq _ _ _ (anchorCand_sw_hashif camel) (anchorCand_sw_close camel)
        (anchorCand_sw_anchor camel) rfl]
      simp
    have hout : update_force_linker_lines (pyReadlines content) camel = pyReadlines content := by
      rw [hlines]
      simp only [update_force_linker_lines, hspan, hscan]
      simp
    simp only [update_clang_tidy_force_linker, hget]
    rw [if_pos hout.symm]

/-- C4, witness: both routines at concrete files that already contain the
candidate lines return the filesystem unchanged with the no-op message. -/
theorem C4_witness :
    update_clang_tidy_cmake
        ⟨[], [("ct/CMakeLists.txt",
          "# x\nadd_subdirectory(abc)\nadd_subdirectory(bar)\nset(ALL_CLANG_TIDY_CHECKS\n  clangTidyAbcModule\n  clangTidyBarModule\n  )\n")]⟩
        "ct" "bar" "Bar" =
      some (⟨[], [("ct/CMakeLists.txt",
          "# x\nadd_subdirectory(abc)\nadd_subdirectory(bar)\nset(ALL_CLANG_TIDY_CHECKS\n  clangTidyAbcModule\n  clangTidyBarModule\n  )\n")]⟩,
        ["Module already included: " ++ pyJoin "ct" "CMakeLists.txt"]) ∧
    update_clang_tidy_force_linker
        ⟨[], [("ct/ClangTidyForceLinker.h",
          "#ifndef G\n// This anchor is used to force the linker to link the AbcModule.\nextern volatile int AbcModuleAnchorSource;\n// This anchor is used to force the linker to link the BarModule.\nextern volatile int BarModuleAnchorSource;\n\x7d // namespace clang::tidy\n")]⟩
        "ct" "Bar" =
      some (⟨[], [("ct/ClangTidyForceLinker.h",
          "#ifndef G\n// This anchor is used to force the linker to link the AbcModule.\nextern volatile int AbcModuleAnchorSource;\n// This anchor is used to force the linker to link the BarModule.\nextern volatile int BarModuleAnchorSource;\n\x7d // namespace clang::tidy\n")]⟩,
        ["Module already has forced link: " ++ pyJoin "ct" "ClangTidyForceLinker.h"]) ∧
    update_clang_tidy_cmake ⟨[], [("ct/CMakeLists.txt", "# x\nadd_subdirectory(abc)\nadd_subdirectory(bar)\nset(ALL_CLANG_TIDY_CHECKS\n  clangTidyAbcModule\n  clangTidyBarModule\n  )\n")]⟩ "ct" "bar" "Bar" =
      some (⟨[], [("ct/CMakeLists.txt", "# x\nadd_subdirectory(abc)\nadd_subdirectory(bar)\nset(ALL_CLANG_TIDY_CHECKS\n  clangTidyAbcModule\n  clangTidyBarModule\n  )\n")]⟩,
        ["Module already included: " ++ pyJoin "ct" "CMakeLists.txt"]) ∧
    update_clang_tidy_force_linker ⟨[], [("ct/ClangTidyForceLinker.h", "#ifndef G\n// This anchor is used to force the linker to link the AbcModule.\nextern volatile int AbcModuleAnchorSource;\n// This anchor is used to force the linker to link the BarModule.\nextern volatile int BarModuleAnchorSource;\n\x7d // namespace clang::tidy\n")]⟩
        "ct" "Bar" =
      some (⟨[], [("ct/ClangTidyForceLinker.h", "#ifndef G\n// This anchor is used to force the linker to link the AbcModule.\nextern volatile int AbcModuleAnchorSource;\n// This anchor is used to force the linker to link the BarModule.\nextern volatile int BarModuleAnchorSource;\n\x7d // namespace clang::tidy\n")]⟩,
        ["Module already has forced link: " ++ pyJoin "ct" "ClangTidyForceLinker.h"]) :=
  ⟨C4_duplicate_no_write.1 _ "ct" "bar" "Bar"
     "# x\nadd_subdirectory(abc)\nadd_subdirectory(bar)\nset(ALL_CLANG_TIDY_CHECKS\n  clangTidyAbcModule\n  clangTidyBarModule\n  )\n"
     "set(ALL_CLANG_TIDY_CHECKS\n"
     ["# x\n"] ["add_subdirectory(abc)\n"] [] ["  clangTidyAbcModule\n"] ["  )\n"]
     (by decide) (by decide) (by decide) (by decide) (by decide) (by decide)
     (by decide) (by decide),
   C4_duplicate_no_write.2.1 _ "ct" "Bar"
     "#ifndef G\n// This anchor is used to force the linker to link the AbcModule.\nextern volatile int AbcModuleAnchorSource;\n// This anchor is used to force the linker to link the BarModule.\nextern volatile int BarModuleAnchorSource;\n\x7d // namespace clang::tidy\n"
     ["#ifndef G\n"]
     ["// This anchor is used to force the linker to link the AbcModule.\n",
      "extern volatile int AbcModuleAnchorSource;\n"]
     ["extern volatile int BarModuleAnchorSource;\n", "\x7d // namespace clang::tidy\n"]
     (by decide) (by decide) (by decide) (by decide) (by decide),
   C4_duplicate_no_write.2.2.1 ⟨[], [("ct/CMakeLists.txt", "# x\nadd_subdirectory(abc)\nadd_subdirectory(bar)\nset(ALL_CLANG_TIDY_CHECKS\n  clangTidyAbcModule\n  clangTidyBarModule\n  )\n")]⟩ "ct" "bar" "Bar"
     "# x\nadd_subdirectory(abc)\nadd_subdirectory(bar)\nset(ALL_CLANG_TIDY_CHECKS\n  clangTidyAbcModule\n  clangTidyBarModule\n  )\n" (by decide) (by decide),
   C4_duplicate_no_write.2.2.2 ⟨[], [("ct/ClangTidyForceLinker.h", "#ifndef G\n// This anchor is used to force the linker to link the AbcModule.\nextern volatile int AbcModuleAnchorSource;\n// This anchor is used to force the linker to link the BarModule.\nextern volatile int BarModuleAnchorSource;\n\x7d // namespace clang::tidy\n")]⟩ "ct" "Bar"
     "#ifndef G\n// This anchor is used to force the linker to link the AbcModule.\nextern volatile int AbcModuleAnchorSource;\n// This anchor is used to force the linker to link the BarModule.\nextern volatile int BarModuleAnchorSource;\n\x7d // namespace clang::tidy\n" (by decide) (by decide)⟩

/-! ## Infrastructure for claim C1 (idempotence of `main`) -/

/-! ### Well-formed header regions: a list of segments, each a plain line or a
closed `#if` ... `#endif` block -/

/-- Tail of a guard block: lines free of `#endif` followed by one `#endif` line. -/
def segBlockTail : List String → Bool
  | [] => false
  | [gend] => pyStartswith gend "#endif"
  | l :: m :: rest => !pyStartswith l "#endif" && segBlockTail (m :: rest)

/-- A well-formed region segment: a single line that opens no guard and closes
no namespace, or a complete `#if` ... `#endif` block. -/
def segOK : List String → Bool
  | [] => false
  | [l] => !pyStartswith l "#if" && !pyStartswith l "\x7d // namespace"
  | gif :: m :: rest => pyStartswith gif "#if" && segBlockTail (m :: rest)

theorem segBlockTail_elim : ∀ {rest : List String}, segBlockTail rest = true →
    ∃ body gend, rest = body ++ [gend] ∧
      (∀ l ∈ body, pyStartswith l "#endif" = false) ∧
      pyStartswith gend "#endif" = true := by
  intro rest h
  match rest with
  | [] => exact absurd h (by simp [segBlockTail])
  | [gend] => exact ⟨[], gend, rfl, by simp, by simpa [segBlockTail] using h⟩
  | x :: y :: t =>
    rw [segBlockTail, Bool.and_eq_true] at h
    obtain ⟨body, gend, he, hb, hg⟩ := segBlockTail_elim h.2
    refine ⟨x :: body, gend, by simp [he], ?_, hg⟩
    intro l hl
    rcases List.mem_cons.mp hl with h1 | h1
    · subst h1
      simpa using h.1
    · exact hb l h1

theorem segOK_elim {seg : List String} (h : segOK seg = true) :
    (∃ l, seg = [l] ∧ pyStartswith l "#if" = false ∧
      pyStartswith l "\x7d // namespace" = false) ∨
    (∃ gif body gend, seg = gif :: (body ++ [gend]) ∧ pyStartswith gif "#if" = true ∧
      (∀ l ∈ body, pyStartswith l "#endif" = false) ∧
      pyStartswith gend "#endif" = true) := by
  match seg with
  | [] => exact absurd h (by simp [segOK])
  | [l] =>
    rw [segOK, Bool.and_eq_true] at h
    exact Or.inl ⟨l, rfl, by simpa using h.1, by simpa using h.2⟩
  | gif :: x :: t =>
    rw [segOK, Bool.and_eq_true] at h
    obtain ⟨body, gend, he, hb, hg⟩ := segBlockTail_elim h.2
    exact Or.inr ⟨gif, body, gend, by simp [he], h.1, hb, hg⟩

/-! ### Line-ness of the inserted candidate lines -/

theorem isLineStr_lit_mid_lit (a m b : String) (bc : List Char)
    (hbc : b.data = bc ++ ['\n']) (hbn : '\n' ∉ bc)
    (ha : '\n' ∉ a.data) (hm : '\n' ∉ m.data) :
    isLineStr (a ++ m ++ b) = true := by
  apply isLineStr_intro (a.data ++ (m.data ++ bc))
  · simp [String.data_append, hbc]
  · simp [ha, hm, hbn]

theorem isLineStr_subdirCand (m : String) (hm : '\n' ∉ m.data) :
    isLineStr (subdirCand m) = true :=
  isLineStr_lit_mid_lit "add_subdirectory(" m ")\n" [')'] rfl (by decide) (by decide) hm

theorem isLineStr_libCand (c : String) (hc : '\n' ∉ c.data) :
    isLineStr (libCand c) = true :=
  isLineStr_lit_mid_lit "  clangTidy" c "Module\n" "Module".data rfl
    (by decide) (by decide) hc

theorem isLineStr_linkLines (c : String) (hc : '\n' ∉ c.data) :
    ∀ l ∈ linkLinesOf c, isLineStr l = true := by
  intro l hl
  simp only [linkLinesOf, anchorCand, List.mem_cons, List.mem_singleton] at hl
  rcases hl with h | h | h | h | h | h
  · subst h
    exact isLineStr_lit_mid_lit _ c "Module.\n" "Module.".data rfl
      (by decide) (by decide) hc
  · subst h
    exact isLineStr_lit_mid_lit "extern volatile int " c "ModuleAnchorSource;\n"
      "ModuleAnchorSource;".data rfl (by decide) (by decide) hc
  · subst h
    exact isLineStr_lit_mid_lit "static int LLVM_ATTRIBUTE_UNUSED " c
      "ModuleAnchorDestination =\n" "ModuleAnchorDestination =".data rfl
      (by decide) (by decide) hc
  · subst h
    exact isLineStr_lit_mid_lit "    " c "ModuleAnchorSource;\n"
      "ModuleAnchorSource;".data rfl (by decide) (by decide) hc
  · subst h
    decide
  · exact absurd h (by simp)

/-! ### takeWhile / dropWhile helpers -/

theorem dropWhile_head_false (p : String → Bool) :
    ∀ (l : List String) (x : String) (xs : List String),
      l.dropWhile p = x :: xs → p x = false := by
  intro l
  induction l with
  | nil => intro x xs h; exact absurd h (by simp)
  | cons y ys ih =>
    intro x xs h
    by_cases hy : p y
    · rw [List.dropWhile_cons_of_pos hy] at h
      exact ih x xs h
    · rw [List.dropWhile_cons_of_neg hy] at h
      cases h
      exact Bool.eq_false_iff.mpr hy

theorem mem_of_mem_takeWhile (p : String → Bool) (l : List String) (x : String)
    (h : x ∈ l.takeWhile p) : x ∈ l :=
  (List.takeWhile_prefix p).subset h

theorem mem_of_mem_dropWhile (p : String → Bool) (l : List String) (x : String)
    (h : x ∈ l.dropWhile p) : x ∈ l :=
  (List.dropWhile_suffix p).subset h

theorem pyIsAlnum_ne_nil {s : String} (h : pyIsAlnum s = true) : s.data ≠ [] := by
  unfold pyIsAlnum at h
  rw [Bool.and_eq_true] at h
  intro hnil
  rw [hnil] at h
  simp at h

theorem pyIsAlnum_ne_empty {s : String} (h : pyIsAlnum s = true) : ¬ s = "" := by
  intro he
  subst he
  exact pyIsAlnum_ne_nil h rfl

/-! ### No-op cores: when both scan flags are false the file is left unchanged -/

theorem update_cmake_lines_of_flags (lines : List String) (m camel : String)
    (pre X : List String)
    (hlines : lines = pre ++ X)
    (hpre : ∀ l ∈ pre, pyStartswith l "add_subdirectory(" = false)
    (hXne : X ≠ [])
    (hXhead : ∀ x, X.head? = some x → pyStartswith x "add_subdirectory(" = true)
    (hflag1 : (cmakeSubdirScan (subdirCand m) false X).2.2 = false)
    (hflag2 : (cmakeLibScan (libCand camel)
      (consumeThrough (fun l => pyStartswith l "set(ALL_CLANG_TIDY_CHECKS")
        (cmakeSubdirScan (subdirCand m) false X).2.1).2).2.2 = false) :
    update_cmake_lines lines m camel = lines := by
  subst hlines
  have hspan : spanUntil (fun l => pyStartswith l "add_subdirectory(") (pre ++ X) =
      (pre, X) := spanUntil_stop_all _ _ _ hpre hXne hXhead
  simp only [update_cmake_lines, cmakeAfterSubdirPhase, cmakeLibPhase, hspan,
    hflag1, hflag2, if_false, Bool.false_eq_true, List.append_nil, List.nil_append]
  rw [libScan_cat, consumeThrough_cat, List.append_assoc, subdirScan_cat]

theorem update_cmake_noop (fs : FS) (root m camel content : String)
    (pre X : List String)
    (hget : fs.getFile (pyJoin root "CMakeLists.txt") = some content)
    (hlines : pyReadlines content = pre ++ X)
    (hpre : ∀ l ∈ pre, pyStartswith l "add_subdirectory(" = false)
    (hXne : X ≠ [])
    (hXhead : ∀ x, X.head? = some x → pyStartswith x "add_subdirectory(" = true)
    (hflag1 : (cmakeSubdirScan (subdirCand m) false X).2.2 = false)
    (hflag2 : (cmakeLibScan (libCand camel)
      (consumeThrough (fun l => pyStartswith l "set(ALL_CLANG_TIDY_CHECKS")
        (cmakeSubdirScan (subdirCand m) false X).2.1).2).2.2 = false) :
    update_clang_tidy_cmake fs root m camel =
      some (fs, ["Module already included: " ++ pyJoin root "CMakeLists.txt"]) := by
  have hout : update_cmake_lines (pyReadlines content) m camel = pyReadlines content :=
    update_cmake_lines_of_flags _ m camel pre X hlines hpre hXne hXhead hflag1 hflag2
  simp only [update_clang_tidy_cmake, hget]
  rw [if_pos hout.symm]

theorem update_fl_lines_of_flag (lines : List String) (camel : String)
    (P X : List String)
    (hlines : lines = P ++ X)
    (hP : ∀ l ∈ P, pyStartswith l "// This anchor " = false)
    (hXne : X ≠ [])
    (hXhead : ∀ x, X.head? = some x → pyStartswith x "// This anchor " = true)
    (hflag : (forceLinkerScan (anchorCand camel) false X).2.2 = false) :
    update_force_linker_lines lines camel = lines := by
  subst hlines
  have hspan : spanUntil (fun l => pyStartswith l "// This anchor ") (P ++ X) =
      (P, X) := spanUntil_stop_all _ _ _ hP hXne hXhead
  simp only [update_force_linker_lines, hspan, hflag, if_false,
    Bool.false_eq_true, List.append_nil]
  rw [List.append_assoc, flScan_cat]

theorem update_fl_noop (fs : FS) (root camel content : String)
    (P X : List String)
    (hget : fs.getFile (pyJoin root "ClangTidyForceLinker.h") = some content)
    (hlines : pyReadlines content = P ++ X)
    (hP : ∀ l ∈ P, pyStartswith l "// This anchor " = false)
    (hXne : X ≠ [])
    (hXhead : ∀ x, X.head? = some x → pyStartswith x "// This anchor " = true)
    (hflag : (forceLinkerScan (anchorCand camel) false X).2.2 = false) :
    update_clang_tidy_force_linker fs root camel =
      some (fs, ["Module already has forced link: "
        ++ pyJoin root "ClangTidyForceLinker.h"]) := by
  have hout : update_force_linker_lines (pyReadlines content) camel = pyReadlines content :=
    update_fl_lines_of_flag _ camel P X hlines hP hXne hXhead hflag
  simp only [update_clang_tidy_force_linker, hget]
  rw [if_pos hout.symm]

/-! ### Structure of the CMake output after one run -/

/-- After one library merge, the tail of the CMake file has the shape
`T2 ++ libCand camel :: Z2` with `T2` lines that the scan consumes again. -/
theorem cmakeLibPhase_structure (camel : String) (mid post : List String) (term : String)
    (hterm : pyContainsChar term ')' = true) :
    ∃ T2 Z2, cmakeLibPhase camel (mid ++ term :: post) = T2 ++ libCand camel :: Z2 ∧
      (∀ l ∈ T2, pyContainsChar l ')' = false ∧
        pyStrGe l (libCand camel) = false ∧ l ∈ mid) ∧
      (∀ l ∈ Z2, l ∈ mid ++ term :: post) := by
  set p2 : String → Bool :=
    fun l => !pyContainsChar l ')' && !pyStrGe l (libCand camel) with hp2
  have hsplit : mid.takeWhile p2 ++ mid.dropWhile p2 = mid :=
    List.takeWhile_append_dropWhile p2 mid
  have hT2 : ∀ l ∈ mid.takeWhile p2, pyContainsChar l ')' = false ∧
      pyStrGe l (libCand camel) = false ∧ l ∈ mid := by
    intro l hl
    have hp := List.mem_takeWhile_imp hl
    rw [hp2, Bool.and_eq_true, Bool.not_eq_true', Bool.not_eq_true'] at hp
    exact ⟨hp.1, hp.2, mem_of_mem_takeWhile p2 mid l hl⟩
  have hcons : ∀ X, cmakeLibScan (libCand camel) (mid.takeWhile p2 ++ X) =
      (mid.takeWhile p2 ++ (cmakeLibScan (libCand camel) X).1,
       (cmakeLibScan (libCand camel) X).2.1, (cmakeLibScan (libCand camel) X).2.2) :=
    fun X => libScan_consume_front _ _ X (fun l hl => ⟨(hT2 l hl).1, (hT2 l hl).2.1⟩)
  match hD : mid.dropWhile p2 with
  | [] =>
    have hmid_eq : mid.takeWhile p2 = mid := by
      conv_rhs => rw [← hsplit, hD]
      rw [List.append_nil]
    have hscan : cmakeLibScan (libCand camel) (mid ++ term :: post) =
        (mid, term :: post, true) := by
      conv_lhs => rw [← hmid_eq]
      rw [hcons (term :: post), libScan_stop_paren _ _ _ hterm]
      simp [hmid_eq]
    refine ⟨mid, term :: post, ?_, ?_, fun l hl => by simp [hl]⟩
    · simp [cmakeLibPhase, hscan]
    · intro l hl
      exact hT2 l (by rw [hmid_eq]; exact hl)
  | l0 :: D2 =>
    have hl0 : p2 l0 = false := dropWhile_head_false p2 mid l0 D2 hD
    have hl0mem : l0 ∈ mid := mem_of_mem_dropWhile p2 mid l0 (by rw [hD]; simp)
    have hD2mem : ∀ l ∈ D2, l ∈ mid := by
      intro l hl
      exact mem_of_mem_dropWhile p2 mid l (by rw [hD]; simp [hl])
    have hmid_eq : mid.takeWhile p2 ++ (l0 :: D2) = mid := by
      conv_rhs => rw [← hsplit, hD]
    rw [hp2] at hl0
    simp only [Bool.and_eq_false_iff, Bool.not_eq_false'] at hl0
    have harr : mid ++ term :: post = mid.takeWhile p2 ++ (l0 :: (D2 ++ term :: post)) := by
      conv_lhs => rw [← hmid_eq]
      simp
    have hmemZ : ∀ l ∈ l0 :: (D2 ++ term :: post), l ∈ mid ++ term :: post := by
      intro l hl
      rcases List.mem_cons.mp hl with h | h
      · subst h; simp [hl0mem]
      · rcases List.mem_append.mp h with h | h
        · simp [hD2mem l h]
        · simp [h]
    by_cases hl0p : pyContainsChar l0 ')' = true
    · -- stopped at a line containing ")": candidate inserted before it
      have hscan : cmakeLibScan (libCand camel) (mid ++ term :: post) =
          (mid.takeWhile p2, l0 :: (D2 ++ term :: post), true) := by
        rw [harr, hcons, libScan_stop_paren _ _ _ hl0p]
        simp
      refine ⟨mid.takeWhile p2, l0 :: (D2 ++ term :: post), ?_, hT2, hmemZ⟩
      simp [cmakeLibPhase, hscan]
    · have hl0p' : pyContainsChar l0 ')' = false := Bool.eq_false_iff.mpr hl0p
      have hl0g : pyStrGe l0 (libCand camel) = true := by
        rcases hl0 with h | h
        · exact absurd h hl0p
        · exact h
      by_cases heq : l0 = libCand camel
      · -- candidate already present at the stop position: no insertion
        have hscan : cmakeLibScan (libCand camel) (mid ++ term :: post) =
            (mid.takeWhile p2, l0 :: (D2 ++ term :: post), false) := by
          rw [harr, hcons, libScan_stop_eq _ _ _ hl0p' heq]
          simp
        refine ⟨mid.takeWhile p2, D2 ++ term :: post, ?_, hT2, ?_⟩
        · rw [cmakeLibPhase]
          simp only [hscan]
          simp [← heq]
        · intro l hl
          exact hmemZ l (by simp [hl])
      · -- stopped at the first line comparing >=: candidate inserted before it
        have hscan : cmakeLibScan (libCand camel) (mid ++ term :: post) =
            (mid.takeWhile p2, l0 :: (D2 ++ term :: post), true) := by
          rw [harr, hcons, libScan_stop_ge _ _ _ hl0p' heq hl0g]
          simp
        refine ⟨mid.takeWhile p2, l0 :: (D2 ++ term :: post), ?_, hT2, hmemZ⟩
        simp [cmakeLibPhase, hscan]

theorem cmakeAfterSubdir_structure (camel : String) (Za : List String) (marker : String)
    (W : List String)
    (hZa : ∀ l ∈ Za, pyStartswith l "set(ALL_CLANG_TIDY_CHECKS" = false)
    (hmark : pyStartswith marker "set(ALL_CLANG_TIDY_CHECKS" = true) :
    cmakeAfterSubdirPhase camel (Za ++ marker :: W) =
      (Za ++ [marker]) ++ cmakeLibPhase camel W := by
  have hc := consumeThrough_stop (fun l => pyStartswith l "set(ALL_CLANG_TIDY_CHECKS")
    Za marker W hZa hmark
  simp only [cmakeAfterSubdirPhase, hc]

/-- One run of the CMake merge on a well-formed file produces
`pre ++ T1 ++ subdirCand :: Z1 ++ marker :: T2 ++ libCand :: Z2`, where the
`T` parts are re-consumed by a second scan and the `Z` parts come after the
stop positions. -/
theorem update_cmake_lines_structure (m camel : String)
    (pre rs mid post : List String) (marker term : String)
    (hpre : ∀ l ∈ pre, pyStartswith l "add_subdirectory(" = false)
    (hrs : ∀ l ∈ rs, pyStartswith l "add_subdirectory(" = true ∧
      pyStartswith l "if(" = false ∧ pyStartswith l "set(ALL_CLANG_TIDY_CHECKS" = false)
    (hrs_ne : rs ≠ [])
    (hmark_if : pyStartswith marker "if(" = false)
    (hmark : pyStartswith marker "set(ALL_CLANG_TIDY_CHECKS" = true)
    (hterm : pyContainsChar term ')' = true) :
    ∃ T1 Z1 T2 Z2,
      update_cmake_lines (pre ++ (rs ++ marker :: (mid ++ term :: post))) m camel =
        pre ++ (T1 ++ subdirCand m :: (Z1 ++ marker :: (T2 ++ libCand camel :: Z2))) ∧
      (∀ l ∈ T1, l ∈ rs ∧ pyStrGe l (subdirCand m) = false) ∧
      (∀ l ∈ Z1, l ∈ rs) ∧
      (∀ l ∈ T2, pyContainsChar l ')' = false ∧
        pyStrGe l (libCand camel) = false ∧ l ∈ mid) ∧
      (∀ l ∈ Z2, l ∈ mid ++ term :: post) := by
  obtain ⟨T2, Z2, hlib, hT2, hZ2⟩ := cmakeLibPhase_structure camel mid post term hterm
  set p1 : String → Bool := fun l => !pyStrGe l (subdirCand m) with hp1
  have hsplit : rs.takeWhile p1 ++ rs.dropWhile p1 = rs :=
    List.takeWhile_append_dropWhile p1 rs
  have hT1 : ∀ l ∈ rs.takeWhile p1, l ∈ rs ∧ pyStrGe l (subdirCand m) = false := by
    intro l hl
    have hp := List.mem_takeWhile_imp hl
    rw [hp1, Bool.not_eq_true'] at hp
    exact ⟨mem_of_mem_takeWhile p1 rs l hl, hp⟩
  have hcons : ∀ X, cmakeSubdirScan (subdirCand m) false (rs.takeWhile p1 ++ X) =
      (rs.takeWhile p1 ++ (cmakeSubdirScan (subdirCand m) false X).1,
       (cmakeSubdirScan (subdirCand m) false X).2.1,
       (cmakeSubdirScan (subdirCand m) false X).2.2) := by
    intro X
    apply subdirScan_consume_front
    intro l hl
    obtain ⟨hmem, hge⟩ := hT1 l hl
    exact ⟨(hrs l hmem).2.1, (hrs l hmem).2.2, hge⟩
  have hspan : spanUntil (fun l => pyStartswith l "add_subdirectory(")
      (pre ++ (rs ++ marker :: (mid ++ term :: post))) =
      (pre, rs ++ marker :: (mid ++ term :: post)) := by
    apply spanUntil_stop_all _ _ _ hpre (by simp)
    intro x hx
    match rs, hrs_ne, hx with
    | r :: rr, _, hx => simp at hx; subst hx; exact (hrs r (by simp)).1
  match hD : rs.dropWhile p1 with
  | [] =>
    have hrs_eq : rs.takeWhile p1 = rs := by
      conv_rhs => rw [← hsplit, hD]
      rw [List.append_nil]
    have hscan : cmakeSubdirScan (subdirCand m) false
        (rs ++ marker :: (mid ++ term :: post)) =
        (rs, marker :: (mid ++ term :: post), true) := by
      conv_lhs => rw [← hrs_eq]
      rw [hcons, subdirScan_stop_marker _ _ _ hmark_if hmark]
      simp [hrs_eq]
    refine ⟨rs, [], T2, Z2, ?_, ?_, by simp, hT2, hZ2⟩
    · have hafter := cmakeAfterSubdir_structure camel [] marker (mid ++ term :: post)
        (by simp) hmark
      simp only [update_cmake_lines, hspan, hscan, if_true]
      rw [List.nil_append] at hafter
      rw [hafter, hlib]
      simp
    · intro l hl
      exact hT1 l (by rw [hrs_eq]; exact hl)
  | l0 :: D1 =>
    have hl0 : p1 l0 = false := dropWhile_head_false p1 rs l0 D1 hD
    have hl0mem : l0 ∈ rs := mem_of_mem_dropWhile p1 rs l0 (by rw [hD]; simp)
    have hD1mem : ∀ l ∈ D1, l ∈ rs := by
      intro l hl
      exact mem_of_mem_dropWhile p1 rs l (by rw [hD]; simp [hl])
    have hrs_eq : rs.takeWhile p1 ++ (l0 :: D1) = rs := by
      conv_rhs => rw [← hsplit, hD]
    rw [hp1, Bool.not_eq_false'] at hl0
    have harr : rs ++ marker :: (mid ++ term :: post) =
        rs.takeWhile p1 ++ (l0 :: (D1 ++ marker :: (mid ++ term :: post))) := by
      conv_lhs => rw [← hrs_eq]
      simp
    have hZa : ∀ l ∈ l0 :: D1, pyStartswith l "set(ALL_CLANG_TIDY_CHECKS" = false := by
      intro l hl
      rcases List.mem_cons.mp hl with h | h
      · rw [h]; exact (hrs l0 hl0mem).2.2
      · exact (hrs l (hD1mem l h)).2.2
    have hafter := cmakeAfterSubdir_structure camel (l0 :: D1) marker
      (mid ++ term :: post) hZa hmark
    by_cases heq : l0 = subdirCand m
    · -- candidate already present at the stop position: no insertion
      have hscan : cmakeSubdirScan (subdirCand m) false
          (rs ++ marker :: (mid ++ term :: post)) =
          (rs.takeWhile p1, l0 :: (D1 ++ marker :: (mid ++ term :: post)), false) := by
        rw [harr, hcons, subdirScan_stop_eq _ _ _ (hrs l0 hl0mem).2.1 (hrs l0 hl0mem).2.2 heq]
        simp
      refine ⟨rs.takeWhile p1, D1, T2, Z2, ?_, hT1, hD1mem, hT2, hZ2⟩
      simp only [update_cmake_lines, hspan, hscan, if_false, Bool.false_eq_true]
      rw [show l0 :: (D1 ++ marker :: (mid ++ term :: post)) =
        (l0 :: D1) ++ marker :: (mid ++ term :: post) by simp]
      rw [hafter, hlib, ← heq]
      simp
    · -- stopped at the first region line comparing >=: insertion before it
      have hscan : cmakeSubdirScan (subdirCand m) false
          (rs ++ marker :: (mid ++ term :: post)) =
          (rs.takeWhile p1, l0 :: (D1 ++ marker :: (mid ++ term :: post)), true) := by
        rw [harr, hcons, subdirScan_stop_ge _ _ _ (hrs l0 hl0mem).2.1 (hrs l0 hl0mem).2.2 heq hl0]
        simp
      refine ⟨rs.takeWhile p1, l0 :: D1, T2, Z2, ?_, hT1, ?_, hT2, hZ2⟩
      · simp only [update_cmake_lines, hspan, hscan, if_true]
        rw [show l0 :: (D1 ++ marker :: (mid ++ term :: post)) =
          (l0 :: D1) ++ marker :: (mid ++ term :: post) by simp]
        rw [hafter, hlib]
        simp
      · intro l hl
        rcases List.mem_cons.mp hl with h | h
        · subst h; exact hl0mem
        · exact hD1mem l h

/-- Structure of the force-linker scan on a region made of well-formed
segments followed by the namespace-closing line: the scan stops with either
the add flag set and a prefix that a second scan re-consumes up to the
candidate, or with the duplicate candidate at the stop position. -/
theorem fl_scan_structure (first : String) (segs : List (List String))
    (close : String) (hpost : List String)
    (hsegs : ∀ seg ∈ segs, segOK seg = true)
    (hclose_if : pyStartswith close "#if" = false)
    (hclose : pyStartswith close "\x7d // namespace" = true)
    (hfirst_if : pyStartswith first "#if" = false)
    (hfirst_anchor : pyStartswith first "// This anchor " = true)
    (hfirst_close : pyStartswith first "\x7d // namespace" = false) :
    ∃ B R flag, forceLinkerScan first false (segs.flatten ++ close :: hpost) =
        (B, R, flag) ∧
      B ++ R = segs.flatten ++ close :: hpost ∧
      (∀ X, forceLinkerScan first false (B ++ first :: X) =
        (B, first :: X, false)) ∧
      (flag = false → R.head? = some first) := by
  induction segs with
  | nil =>
    refine ⟨[], close :: hpost, true, ?_, by simp, ?_, by simp⟩
    · simpa using flScan_stop_close first close hpost hclose_if hclose
    · intro X
      simpa using flScan_stop_eq first first X hfirst_if hfirst_close hfirst_anchor rfl
  | cons seg segs ih =>
    obtain ⟨B, R, flag, hscan, hcat, hre, hdup⟩ :=
      ih (fun s hs => hsegs s (List.mem_cons_of_mem _ hs))
    rcases segOK_elim (hsegs seg (by simp)) with
      ⟨l, hseg, hlif, hlclose⟩ | ⟨gif, body, gend, hseg, hgif, hbody, hgend⟩
    · subst hseg
      have hflat : ([l] :: segs).flatten ++ close :: hpost =
          l :: (segs.flatten ++ close :: hpost) := by simp
      by_cases hanch : pyStartswith l "// This anchor " = true
      · by_cases heq : l = first
        · refine ⟨[], l :: (segs.flatten ++ close :: hpost), false, ?_, by simp,
            ?_, ?_⟩
          · rw [hflat, flScan_stop_eq first l _ hlif hlclose hanch heq]
          · intro X
            simpa using flScan_stop_eq first first X hfirst_if hfirst_close
              hfirst_anchor rfl
          · intro _
            simp [heq]
        · by_cases hge : pyStrGe l first = true
          · refine ⟨[], l :: (segs.flatten ++ close :: hpost), true, ?_, by simp,
              ?_, by simp⟩
            · rw [hflat, flScan_stop_ge first l _ hlif hlclose hanch heq hge]
            · intro X
              simpa using flScan_stop_eq first first X hfirst_if hfirst_close
                hfirst_anchor rfl
          · rw [Bool.not_eq_true] at hge
            refine ⟨l :: B, R, flag, ?_, by simp [hcat], ?_, hdup⟩
            · rw [hflat, flScan_cons_lt first l _ hlif hlclose hge, hscan]
            · intro X
              rw [List.cons_append, flScan_cons_lt first l _ hlif hlclose hge,
                hre X]
      · rw [Bool.not_eq_true] at hanch
        refine ⟨l :: B, R, flag, ?_, by simp [hcat], ?_, hdup⟩
        · rw [hflat, flScan_cons_skipover first l _ hlif hlclose hanch, hscan]
        · intro X
          rw [List.cons_append, flScan_cons_skipover first l _ hlif hlclose hanch,
            hre X]
    · subst hseg
      have hflat : ((gif :: (body ++ [gend])) :: segs).flatten ++ close :: hpost =
          gif :: (body ++ gend :: (segs.flatten ++ close :: hpost)) := by simp
      refine ⟨gif :: (body ++ gend :: B), R, flag, ?_, by simp [hcat], ?_, hdup⟩
      · rw [hflat, flScan_skip_block first gif gend body _ hgif hbody hgend, hscan]
      · intro X
        have harr : (gif :: (body ++ gend :: B)) ++ first :: X =
            gif :: (body ++ gend :: (B ++ first :: X)) := by simp
        rw [harr, flScan_skip_block first gif gend body _ hgif hbody hgend, hre X]

/-! ### Prefixes that disagree on the first character -/

theorem pyStartswith_false_of_head (s p q : String) (cp cq : Char)
    (hp : pyStartswith s p = true)
    (hcp : p.data.head? = some cp) (hcq : q.data.head? = some cq) (hne : cp ≠ cq) :
    pyStartswith s q = false := by
  unfold pyStartswith at hp ⊢
  cases hpd : p.data with
  | nil => rw [hpd] at hcp; exact absurd hcp (by simp)
  | cons a pt =>
    rw [hpd] at hcp hp
    have ha : a = cp := by simpa using hcp
    cases hqd : q.data with
    | nil => rw [hqd] at hcq; exact absurd hcq (by simp)
    | cons b qt =>
      rw [hqd] at hcq
      have hb : b = cq := by simpa using hcq
      cases hsd : s.data with
      | nil =>
        rw [hsd] at hp
        simp [List.isPrefixOf] at hp
      | cons c st =>
        rw [hsd] at hp
        simp only [List.isPrefixOf, Bool.and_eq_true, beq_iff_eq] at hp
        simp only [List.isPrefixOf, Bool.and_eq_true, beq_iff_eq, Bool.eq_false_iff,
          not_and]
        intro hbc
        rw [Bool.and_eq_true, beq_iff_eq] at hbc
        apply hne
        calc cp = a := ha.symm
          _ = c := hp.1
          _ = b := hbc.1.symm
          _ = cq := hb

theorem anchor_line_not_hashif {l : String}
    (h : pyStartswith l "// This anchor " = true) :
    pyStartswith l "#if" = false :=
  pyStartswith_false_of_head l _ _ '/' '#' h rfl rfl (by decide)

theorem anchor_line_not_close {l : String}
    (h : pyStartswith l "// This anchor " = true) :
    pyStartswith l "\x7d // namespace" = false :=
  pyStartswith_false_of_head l _ _ '/' '\x7d' h rfl rfl (by decide)

theorem close_line_not_hashif {l : String}
    (h : pyStartswith l "\x7d // namespace" = true) :
    pyStartswith l "#if" = false :=
  pyStartswith_false_of_head l _ _ '\x7d' '#' h rfl rfl (by decide)

/-! ### Characters excluded by `isalnum` -/

theorem pyIsAlnum_no_char {s : String} {c : Char} (h : pyIsAlnum s = true)
    (hc : c.isAlphanum = false) : c ∉ s.data := by
  intro hm
  unfold pyIsAlnum at h
  rw [Bool.and_eq_true] at h
  have := List.all_eq_true.mp h.2 _ hm
  rw [hc] at this
  exact absurd this (by simp)

/-! ### Distinctness of the touched paths -/

theorem pyJoin_sub_ne_empty (r module : String) (hr : ¬ r = "")
    (hsl : pyEndswith r "/" = false) : ¬ pyJoin r module = "" := by
  rw [pyJoin_eq r module hr hsl]
  intro he
  have hd := congrArg String.data he
  simp only [String.data_append] at hd
  rcases List.append_eq_nil.mp (List.append_eq_nil.mp hd).1 with ⟨_, hslash⟩
  exact absurd hslash (by decide)

theorem pyJoin_sub_no_trailing_slash (r module : String)
    (hm_ne : module.data ≠ []) (hm_sl : '/' ∉ module.data) :
    pyEndswith (r ++ "/" ++ module) "/" = false :=
  pyEndswith_slash_concat (r ++ "/") module hm_ne hm_sl

/-- A file directly in the clang-tidy directory is never one of the files
created inside the new module directory. -/
theorem pyJoin_top_ne_sub (r module b c : String)
    (hr : ¬ r = "") (hsl : pyEndswith r "/" = false)
    (hm_ne : module.data ≠ []) (hm_sl : '/' ∉ module.data)
    (hb : '/' ∉ b.data) :
    pyJoin r b ≠ pyJoin (pyJoin r module) c := by
  have hM : pyJoin r module = r ++ "/" ++ module := pyJoin_eq r module hr hsl
  have hM_ne : ¬ pyJoin r module = "" := pyJoin_sub_ne_empty r module hr hsl
  have hM_sl : pyEndswith (pyJoin r module) "/" = false := by
    rw [hM]
    exact pyJoin_sub_no_trailing_slash r module hm_ne hm_sl
  intro he
  rw [pyJoin_eq r b hr hsl, pyJoin_eq (pyJoin r module) c hM_ne hM_sl, hM] at he
  have hd := congrArg String.data he
  have hslash : ("/" : String).data = ['/'] := rfl
  simp only [String.data_append, hslash, List.append_assoc,
    List.singleton_append] at hd
  have h2 := List.append_cancel_left hd
  have h3 : b.data = module.data ++ '/' :: c.data := by
    injection h2
  apply hb
  rw [h3]
  simp

theorem pyJoin_files_ne (r b c : String) (hr : ¬ r = "")
    (hsl : pyEndswith r "/" = false) (hlen : b.data.length ≠ c.data.length) :
    pyJoin r b ≠ pyJoin r c := by
  rw [pyJoin_eq r b hr hsl, pyJoin_eq r c hr hsl]
  apply str_ne_of_data_length
  simp only [String.data_append, List.length_append]
  omega

/-! ### Filesystem-level behaviour of the two update routines -/

theorem update_cmake_run (fs : FS) (root m camel content : String) (out : List String)
    (hget : fs.getFile (pyJoin root "CMakeLists.txt") = some content)
    (hout : update_cmake_lines (pyReadlines content) m camel = out)
    (hline : ∀ l ∈ out, isLineStr l = true) :
    ∃ fs1 msgs, update_clang_tidy_cmake fs root m camel = some (fs1, msgs) ∧
      fs1.dirs = fs.dirs ∧
      (∃ c1, fs1.getFile (pyJoin root "CMakeLists.txt") = some c1 ∧
        pyReadlines c1 = out) ∧
      (∀ q, q ≠ pyJoin root "CMakeLists.txt" → fs1.getFile q = fs.getFile q) ∧
      (∀ q, fs.existsPath q = true → fs1.existsPath q = true) := by
  by_cases he : pyReadlines content = out
  · refine ⟨fs, ["Module already included: " ++ pyJoin root "CMakeLists.txt"], ?_,
      rfl, ⟨content, hget, he⟩, fun q _ => rfl, fun q h => h⟩
    simp only [update_clang_tidy_cmake, hget, hout]
    rw [if_pos he]
  · refine ⟨fs.setFile (pyJoin root "CMakeLists.txt") (concatLines out),
      ["Updating " ++ pyJoin root "CMakeLists.txt" ++ "..."], ?_, rfl, ?_, ?_, ?_⟩
    · simp only [update_clang_tidy_cmake, hget, hout]
      rw [if_neg he]
    · exact ⟨concatLines out, getFile_setFile_self _ _ _,
        pyReadlines_concatLines out hline⟩
    · intro q hq
      exact getFile_setFile_ne _ _ _ _ hq
    · intro q h
      exact existsPath_setFile_mono _ _ _ _ h

theorem update_fl_run (fs : FS) (root camel content : String) (out : List String)
    (hget : fs.getFile (pyJoin root "ClangTidyForceLinker.h") = some content)
    (hout : update_force_linker_lines (pyReadlines content) camel = out)
    (hline : ∀ l ∈ out, isLineStr l = true) :
    ∃ fs1 msgs, update_clang_tidy_force_linker fs root camel = some (fs1, msgs) ∧
      fs1.dirs = fs.dirs ∧
      (∃ c1, fs1.getFile (pyJoin root "ClangTidyForceLinker.h") = some c1 ∧
        pyReadlines c1 = out) ∧
      (∀ q, q ≠ pyJoin root "ClangTidyForceLinker.h" → fs1.getFile q = fs.getFile q) ∧
      (∀ q, fs.existsPath q = true → fs1.existsPath q = true) := by
  by_cases he : pyReadlines content = out
  · refine ⟨fs, ["Module already has forced link: "
      ++ pyJoin root "ClangTidyForceLinker.h"], ?_,
      rfl, ⟨content, hget, he⟩, fun q _ => rfl, fun q h => h⟩
    simp only [update_clang_tidy_force_linker, hget, hout]
    rw [if_pos he]
  · refine ⟨fs.setFile (pyJoin root "ClangTidyForceLinker.h") (concatLines out),
      ["Updating " ++ pyJoin root "ClangTidyForceLinker.h" ++ "..."], ?_, rfl, ?_, ?_, ?_⟩
    · simp only [update_clang_tidy_force_linker, hget, hout]
      rw [if_neg he]
    · exact ⟨concatLines out, getFile_setFile_self _ _ _,
        pyReadlines_concatLines out hline⟩
    · intro q hq
      exact getFile_setFile_ne _ _ _ _ hq
    · intro q h
      exact existsPath_setFile_mono _ _ _ _ h

/-! ### Facts about the scaffolding steps of `main` -/

theorem dir_step_facts (fs : FS) (p : String) (m1 m2 : List String) :
    ∃ fs2 msgs,
      (if fs.existsPath p then (fs, m1) else (fs.mkdir p, m2)) = (fs2, msgs) ∧
      (∀ q, fs2.getFile q = fs.getFile q) ∧
      (∀ q, fs.existsPath q = true → fs2.existsPath q = true) ∧
      fs2.existsPath p = true := by
  by_cases h : fs.existsPath p = true
  · exact ⟨fs, m1, by rw [if_pos h], fun q => rfl, fun q hq => hq, h⟩
  · exact ⟨fs.mkdir p, m2, by rw [if_neg h], fun q => getFile_mkdir fs p q,
      fun q hq => existsPath_mkdir_mono fs p q hq, existsPath_mkdir_self fs p⟩

theorem write_cmake_facts (fs : FS) (module_path camel : String) :
    ∃ fs2 msgs, write_cmake fs module_path camel = (fs2, msgs) ∧
      fs2.dirs = fs.dirs ∧
      (∀ q, q ≠ pyJoin module_path "CMakeLists.txt" → fs2.getFile q = fs.getFile q) ∧
      (∀ q, fs.existsPath q = true → fs2.existsPath q = true) ∧
      fs2.existsPath (pyJoin module_path "CMakeLists.txt") = true := by
  by_cases h : fs.existsPath (pyJoin module_path "CMakeLists.txt") = true
  · refine ⟨fs, [], ?_, rfl, fun q _ => rfl, fun q hq => hq, h⟩
    simp only [write_cmake]
    rw [if_pos h]
  · refine ⟨fs.setFile (pyJoin module_path "CMakeLists.txt") (cmakeTemplate camel),
      ["Creating " ++ pyJoin module_path "CMakeLists.txt" ++ "..."], ?_, rfl, ?_, ?_, ?_⟩
    · simp only [write_cmake]
      rw [if_neg h]
    · intro q hq
      exact getFile_setFile_ne _ _ _ _ hq
    · intro q hq
      exact existsPath_setFile_mono _ _ _ _ hq
    · exact existsPath_setFile_self _ _ _

theorem write_module_cpp_facts (fs : FS) (module_path m camel ns : String) :
    ∃ fs2 msgs, write_module_cpp fs module_path m camel ns = (fs2, msgs) ∧
      fs2.dirs = fs.dirs ∧
      (∀ q, q ≠ pyJoin module_path (camel ++ "TidyModule.cpp") →
        fs2.getFile q = fs.getFile q) ∧
      (∀ q, fs.existsPath q = true → fs2.existsPath q = true) ∧
      fs2.existsPath (pyJoin module_path (camel ++ "TidyModule.cpp")) = true := by
  by_cases h : fs.existsPath (pyJoin module_path (camel ++ "TidyModule.cpp")) = true
  · refine ⟨fs, ["File already exists: " ++ pyJoin module_path (camel ++ "TidyModule.cpp")],
      ?_, rfl, fun q _ => rfl, fun q hq => hq, h⟩
    simp only [write_module_cpp]
    rw [if_pos h]
  · refine ⟨fs.setFile (pyJoin module_path (camel ++ "TidyModule.cpp"))
        (moduleCppTemplate m camel ns),
      ["Creating " ++ pyJoin module_path (camel ++ "TidyModule.cpp") ++ "..."],
      ?_, rfl, ?_, ?_, ?_⟩
    · simp only [write_module_cpp]
      rw [if_neg h]
    · intro q hq
      exact getFile_setFile_ne _ _ _ _ hq
    · intro q hq
      exact existsPath_setFile_mono _ _ _ _ hq
    · exact existsPath_setFile_self _ _ _

/-! ### Structure of the force-linker output after one run -/

/-- One run of the anchor merge on a well-formed header produces
`hpre2 ++ B ++ anchorCand :: Y`, where a second scan re-consumes `B` and stops
at the anchor line with the add flag cleared. -/
theorem update_fl_lines_structure (camel : String) (hpre2 : List String)
    (l0 : String) (segs2 : List (List String)) (close : String) (hpost : List String)
    (hhpre : ∀ l ∈ hpre2, pyStartswith l "// This anchor " = false)
    (hl0 : pyStartswith l0 "// This anchor " = true)
    (hsegs : ∀ seg ∈ segs2, segOK seg = true)
    (hclose : pyStartswith close "\x7d // namespace" = true) :
    ∃ B Y, update_force_linker_lines
        (hpre2 ++ (([l0] :: segs2).flatten ++ close :: hpost)) camel =
        hpre2 ++ (B ++ anchorCand camel :: Y) ∧
      (∀ l ∈ B, l ∈ ([l0] :: segs2).flatten ++ close :: hpost) ∧
      (∀ l ∈ Y, l ∈ linkLinesOf camel ∨
        l ∈ ([l0] :: segs2).flatten ++ close :: hpost) ∧
      (∀ X, forceLinkerScan (anchorCand camel) false (B ++ anchorCand camel :: X) =
        (B, anchorCand camel :: X, false)) ∧
      (B = [] ∨ B.head? = some l0) := by
  have hl0_if := anchor_line_not_hashif hl0
  have hl0_close := anchor_line_not_close hl0
  have hclose_if := close_line_not_hashif hclose
  have hsegsall : ∀ seg ∈ ([l0] :: segs2), segOK seg = true := by
    intro seg hs
    rcases List.mem_cons.mp hs with h | h
    · subst h
      simp [segOK, hl0_if, hl0_close]
    · exact hsegs seg h
  obtain ⟨B, R, flag, hscan, hcat, hre, hdup⟩ :=
    fl_scan_structure (anchorCand camel) ([l0] :: segs2) close hpost hsegsall
      hclose_if hclose (anchorCand_sw_hashif camel) (anchorCand_sw_anchor camel)
      (anchorCand_sw_close camel)
  have hshape : ([l0] :: segs2).flatten ++ close :: hpost =
      l0 :: (segs2.flatten ++ close :: hpost) := by simp
  have hspan : spanUntil (fun l => pyStartswith l "// This anchor ")
      (hpre2 ++ (([l0] :: segs2).flatten ++ close :: hpost)) =
      (hpre2, ([l0] :: segs2).flatten ++ close :: hpost) := by
    rw [hshape]
    exact spanUntil_stop _ hpre2 l0 _ hhpre hl0
  have hBmem : ∀ l ∈ B, l ∈ ([l0] :: segs2).flatten ++ close :: hpost := by
    intro l hl
    rw [← hcat]
    exact List.mem_append_left _ hl
  have hBhead : B = [] ∨ B.head? = some l0 := by
    cases hB : B with
    | nil => exact Or.inl rfl
    | cons b bs =>
      right
      have hx : (b :: bs) ++ R = l0 :: (segs2.flatten ++ close :: hpost) := by
        rw [← hB, hcat, hshape]
      rw [List.cons_append, List.cons_eq_cons] at hx
      simp [hx.1]
  cases flag with
  | true =>
    refine ⟨B, (linkLinesOf camel).tail ++ R, ?_, hBmem, ?_, hre, hBhead⟩
    · simp only [update_force_linker_lines, hspan, hscan, if_true]
      have hlk : linkLinesOf camel = anchorCand camel :: (linkLinesOf camel).tail := rfl
      conv_lhs => rw [hlk]
      simp
    · intro l hl
      rcases List.mem_append.mp hl with h | h
      · exact Or.inl (List.mem_of_mem_tail h)
      · right
        rw [← hcat]
        exact List.mem_append_right _ h
  | false =>
    have hhead := hdup rfl
    cases hR : R with
    | nil =>
      rw [hR] at hhead
      exact absurd hhead (by simp)
    | cons r R2 =>
      rw [hR] at hhead
      have hr : r = anchorCand camel := by simpa using hhead
      refine ⟨B, R2, ?_, hBmem, ?_, hre, hBhead⟩
      · simp only [update_force_linker_lines, hspan, hscan, hR, if_false,
          Bool.false_eq_true, hr]
        simp
      · intro l hl
        right
        rw [← hcat, hR]
        exact List.mem_append_right _ (by simp [hl])

/-! ### The second run of the two merges on their own output is a no-op -/

theorem update_cmake_second_noop (fs1 : FS) (root m camel c1 : String)
    (pre T1 Z1 T2 Z2 : List String) (marker : String)
    (hget : fs1.getFile (pyJoin root "CMakeLists.txt") = some c1)
    (hlines : pyReadlines c1 =
      pre ++ (T1 ++ subdirCand m :: (Z1 ++ marker :: (T2 ++ libCand camel :: Z2))))
    (hpre : ∀ l ∈ pre, pyStartswith l "add_subdirectory(" = false)
    (hT1 : ∀ l ∈ T1, pyStartswith l "add_subdirectory(" = true ∧
      pyStartswith l "if(" = false ∧
      pyStartswith l "set(ALL_CLANG_TIDY_CHECKS" = false ∧
      pyStrGe l (subdirCand m) = false)
    (hZ1 : ∀ l ∈ Z1, pyStartswith l "set(ALL_CLANG_TIDY_CHECKS" = false)
    (hmark : pyStartswith marker "set(ALL_CLANG_TIDY_CHECKS" = true)
    (hT2 : ∀ l ∈ T2, pyContainsChar l ')' = false ∧ pyStrGe l (libCand camel) = false)
    (hcam_par : ')' ∉ camel.data) :
    update_clang_tidy_cmake fs1 root m camel =
      some (fs1, ["Module already included: " ++ pyJoin root "CMakeLists.txt"]) := by
  have hscan2 : cmakeSubdirScan (subdirCand m) false
      (T1 ++ subdirCand m :: (Z1 ++ marker :: (T2 ++ libCand camel :: Z2))) =
      (T1, subdirCand m :: (Z1 ++ marker :: (T2 ++ libCand camel :: Z2)), false) := by
    rw [subdirScan_consume_front (subdirCand m) T1 _
        (fun l hl => ⟨(hT1 l hl).2.1, (hT1 l hl).2.2.1, (hT1 l hl).2.2.2⟩),
      subdirScan_stop_eq _ _ _ (subdirCand_sw_if m) (subdirCand_sw_setall m) rfl]
    simp
  have hshift : subdirCand m :: (Z1 ++ marker :: (T2 ++ libCand camel :: Z2)) =
      (subdirCand m :: Z1) ++ marker :: (T2 ++ libCand camel :: Z2) := by simp
  have hcons2 : consumeThrough (fun l => pyStartswith l "set(ALL_CLANG_TIDY_CHECKS")
      (subdirCand m :: (Z1 ++ marker :: (T2 ++ libCand camel :: Z2))) =
      ((subdirCand m :: Z1) ++ [marker], T2 ++ libCand camel :: Z2) := by
    have hZ1' : ∀ l ∈ subdirCand m :: Z1,
        pyStartswith l "set(ALL_CLANG_TIDY_CHECKS" = false := by
      intro l hl
      rcases List.mem_cons.mp hl with h | h
      · rw [h]
        exact subdirCand_sw_setall m
      · exact hZ1 l h
    rw [hshift]
    exact consumeThrough_stop (fun l => pyStartswith l "set(ALL_CLANG_TIDY_CHECKS")
      (subdirCand m :: Z1) marker (T2 ++ libCand camel :: Z2) hZ1' hmark
  have hlib2 : cmakeLibScan (libCand camel) (T2 ++ libCand camel :: Z2) =
      (T2, libCand camel :: Z2, false) := by
    rw [libScan_consume_front (libCand camel) T2 _ hT2,
      libScan_stop_eq _ _ _ (libCand_no_paren camel hcam_par) rfl]
    simp
  apply update_cmake_noop fs1 root m camel c1 pre
    (T1 ++ subdirCand m :: (Z1 ++ marker :: (T2 ++ libCand camel :: Z2)))
    hget hlines hpre
  · simp
  · intro x hx
    cases hT : T1 with
    | nil =>
      rw [hT] at hx
      simp at hx
      rw [← hx]
      exact subdirCand_sw_add m
    | cons t ts =>
      rw [hT] at hx
      simp at hx
      rw [← hx]
      exact (hT1 t (by rw [hT]; simp)).1
  · rw [hscan2]
  · rw [hscan2]
    simp only
    rw [hcons2]
    simp only
    rw [hlib2]

theorem update_fl_second_noop (fs1 : FS) (root camel c2 : String)
    (hpre2 B Y : List String)
    (hget : fs1.getFile (pyJoin root "ClangTidyForceLinker.h") = some c2)
    (hlines : pyReadlines c2 = hpre2 ++ (B ++ anchorCand camel :: Y))
    (hhpre : ∀ l ∈ hpre2, pyStartswith l "// This anchor " = false)
    (hre : ∀ X, forceLinkerScan (anchorCand camel) false (B ++ anchorCand camel :: X) =
      (B, anchorCand camel :: X, false))
    (hhead : ∀ x, (B ++ anchorCand camel :: Y).head? = some x →
      pyStartswith x "// This anchor " = true) :
    update_clang_tidy_force_linker fs1 root camel =
      some (fs1, ["Module already has forced link: "
        ++ pyJoin root "ClangTidyForceLinker.h"]) := by
  apply update_fl_noop fs1 root camel c2 hpre2 (B ++ anchorCand camel :: Y)
    hget hlines hhpre (by simp) hhead
  rw [hre Y]

/-! ### Conditional idempotence of `main` -/

/-- C1 (amended): on a directory tree whose two shared files are well-formed —
the CMake file has a nonempty unguarded `add_subdirectory` region followed by
the `set(ALL_CLANG_TIDY_CHECKS` marker and a `)`-terminated library list, and
the header has an anchor region of single lines and complete `#if`/`#endif`
blocks closed by `\x7d // namespace` — running `main` twice with the same
alphanumeric module name leaves the filesystem of the first run unchanged, and
the second run reports already-exists/unchanged for every step. -/
theorem C1_amended
    (fs : FS) (root module d : String)
    (cmcontent hcontent : String)
    (pre rs mid post : List String) (marker term : String)
    (hpre2 : List String) (l0 : String) (segs2 : List (List String))
    (close : String) (hpost : List String)
    (hmod : pyIsAlnum module = true)
    (hroot : ¬ root = "")
    (hroot_sl : pyEndswith root "/" = false)
    (hcam_nl : '\n' ∉ (get_camel_name module).data)
    (hcam_par : ')' ∉ (get_camel_name module).data)
    (hcm : fs.getFile (pyJoin root "CMakeLists.txt") = some cmcontent)
    (hcm_isline : ∀ l ∈ pyReadlines cmcontent, isLineStr l = true)
    (hcmlines : pyReadlines cmcontent = pre ++ (rs ++ marker :: (mid ++ term :: post)))
    (hpre : ∀ l ∈ pre, pyStartswith l "add_subdirectory(" = false)
    (hrs : ∀ l ∈ rs, pyStartswith l "add_subdirectory(" = true ∧
      pyStartswith l "if(" = false ∧ pyStartswith l "set(ALL_CLANG_TIDY_CHECKS" = false)
    (hrs_ne : rs ≠ [])
    (hmark_if : pyStartswith marker "if(" = false)
    (hmark : pyStartswith marker "set(ALL_CLANG_TIDY_CHECKS" = true)
    (hterm : pyContainsChar term ')' = true)
    (hh : fs.getFile (pyJoin root "ClangTidyForceLinker.h") = some hcontent)
    (hh_isline : ∀ l ∈ pyReadlines hcontent, isLineStr l = true)
    (hhlines : pyReadlines hcontent = hpre2 ++ (([l0] :: segs2).flatten ++ close :: hpost))
    (hhpre : ∀ l ∈ hpre2, pyStartswith l "// This anchor " = false)
    (hl0 : pyStartswith l0 "// This anchor " = true)
    (hsegs : ∀ seg ∈ segs2, segOK seg = true)
    (hclose : pyStartswith close "\x7d // namespace" = true) :
    ∃ fs1 out1, main fs root (some module) d = some (fs1, out1) ∧
      main fs1 root (some module) d = some (fs1,
        ["Module path already exists: " ++ module_path_of root module,
         "File already exists: " ++ pyJoin (module_path_of root module)
           (get_camel_name module ++ "TidyModule.cpp"),
         "Docs path already exists: " ++ docs_path_of root module,
         "Test path already exists: " ++ test_path_of root module,
         "Module already included: " ++ pyJoin root "CMakeLists.txt",
         "Module already has forced link: " ++ pyJoin root "ClangTidyForceLinker.h",
         "Done. Now it's your turn!"]) := by
  have hmod_ne : ¬ module = "" := pyIsAlnum_ne_empty hmod
  have hmod_nl : '\n' ∉ module.data := pyIsAlnum_no_char hmod (by decide)
  have hmod_sl : '/' ∉ module.data := pyIsAlnum_no_char hmod (by decide)
  have hmod_data_ne : module.data ≠ [] := pyIsAlnum_ne_nil hmod
  -- distinctness of the touched file paths
  have hne_cm_t2 : pyJoin root "CMakeLists.txt" ≠
      pyJoin (module_path_of root module) "CMakeLists.txt" :=
    pyJoin_top_ne_sub root module "CMakeLists.txt" "CMakeLists.txt"
      hroot hroot_sl hmod_data_ne hmod_sl (by decide)
  have hne_cm_t3 : pyJoin root "CMakeLists.txt" ≠
      pyJoin (module_path_of root module) (get_camel_name module ++ "TidyModule.cpp") :=
    pyJoin_top_ne_sub root module "CMakeLists.txt" _
      hroot hroot_sl hmod_data_ne hmod_sl (by decide)
  have hne_fl_t2 : pyJoin root "ClangTidyForceLinker.h" ≠
      pyJoin (module_path_of root module) "CMakeLists.txt" :=
    pyJoin_top_ne_sub root module "ClangTidyForceLinker.h" "CMakeLists.txt"
      hroot hroot_sl hmod_data_ne hmod_sl (by decide)
  have hne_fl_t3 : pyJoin root "ClangTidyForceLinker.h" ≠
      pyJoin (module_path_of root module) (get_camel_name module ++ "TidyModule.cpp") :=
    pyJoin_top_ne_sub root module "ClangTidyForceLinker.h" _
      hroot hroot_sl hmod_data_ne hmod_sl (by decide)
  have hne_cm_fl : pyJoin root "CMakeLists.txt" ≠ pyJoin root "ClangTidyForceLinker.h" :=
    pyJoin_files_ne root "CMakeLists.txt" "ClangTidyForceLinker.h"
      hroot hroot_sl (by decide)
  -- run-1 structure of the two merges
  obtain ⟨T1, Z1, T2, Z2, hcmout, hT1f, hZ1f, hT2f, hZ2f⟩ :=
    update_cmake_lines_structure module (get_camel_name module) pre rs mid post
      marker term hpre hrs hrs_ne hmark_if hmark hterm
  obtain ⟨B, Y, hflout, hBmem, hYmem, hre, hBhead⟩ :=
    update_fl_lines_structure (get_camel_name module) hpre2 l0 segs2 close hpost
      hhpre hl0 hsegs hclose
  have hout1 : update_cmake_lines (pyReadlines cmcontent) module (get_camel_name module) =
      pre ++ (T1 ++ subdirCand module ::
        (Z1 ++ marker :: (T2 ++ libCand (get_camel_name module) :: Z2))) := by
    rw [hcmlines]
    exact hcmout
  have hout2 : update_force_linker_lines (pyReadlines hcontent) (get_camel_name module) =
      hpre2 ++ (B ++ anchorCand (get_camel_name module) :: Y) := by
    rw [hhlines]
    exact hflout
  -- line-ness of the two outputs
  have hmemcm : ∀ l, l ∈ pre ∨ l ∈ rs ∨ l = marker ∨ l ∈ mid ∨ l = term ∨ l ∈ post →
      isLineStr l = true := by
    intro l hl
    apply hcm_isline
    rw [hcmlines]
    simp only [List.mem_append, List.mem_cons]
    tauto
  have hline_cm : ∀ l ∈ pre ++ (T1 ++ subdirCand module ::
      (Z1 ++ marker :: (T2 ++ libCand (get_camel_name module) :: Z2))),
      isLineStr l = true := by
    intro l hl
    simp only [List.mem_append, List.mem_cons] at hl
    rcases hl with hl | hl | hl | hl | hl | hl | hl | hl
    · exact hmemcm l (Or.inl hl)
    · exact hmemcm l (Or.inr (Or.inl (hT1f l hl).1))
    · rw [hl]
      exact isLineStr_subdirCand module hmod_nl
    · exact hmemcm l (Or.inr (Or.inl (hZ1f l hl)))
    · exact hmemcm l (Or.inr (Or.inr (Or.inl hl)))
    · exact hmemcm l (Or.inr (Or.inr (Or.inr (Or.inl (hT2f l hl).2.2))))
    · rw [hl]
      exact isLineStr_libCand (get_camel_name module) hcam_nl
    · have := hZ2f l hl
      simp only [List.mem_append, List.mem_cons] at this
      rcases this with h | h | h
      · exact hmemcm l (Or.inr (Or.inr (Or.inr (Or.inl h))))
      · exact hmemcm l (Or.inr (Or.inr (Or.inr (Or.inr (Or.inl h)))))
      · exact hmemcm l (Or.inr (Or.inr (Or.inr (Or.inr (Or.inr h)))))
  have hmemfl : ∀ l, l ∈ ([l0] :: segs2).flatten ++ close :: hpost →
      isLineStr l = true := by
    intro l hl
    apply hh_isline
    rw [hhlines]
    exact List.mem_append_right _ hl
  have hline_fl : ∀ l ∈ hpre2 ++ (B ++ anchorCand (get_camel_name module) :: Y),
      isLineStr l = true := by
    intro l hl
    simp only [List.mem_append, List.mem_cons] at hl
    rcases hl with hl | hl | hl | hl
    · exact hh_isline l (by rw [hhlines]; exact List.mem_append_left _ hl)
    · exact hmemfl l (hBmem l hl)
    · rw [hl]
      exact isLineStr_linkLines (get_camel_name module) hcam_nl _ (by simp [linkLinesOf])
    · rcases hYmem l hl with h | h
      · exact isLineStr_linkLines (get_camel_name module) hcam_nl _ h
      · exact hmemfl l h
  -- run 1, step by step
  obtain ⟨fsA, mA, hA, hAfile, hAex, hAexM⟩ :=
    dir_step_facts fs (module_path_of root module)
      ["Module path already exists: " ++ module_path_of root module]
      ["Creating " ++ module_path_of root module ++ "..."]
  obtain ⟨fsB, mB, hB, hBdirs, hBfile, hBex, hBext2⟩ :=
    write_cmake_facts fsA (module_path_of root module) (get_camel_name module)
  obtain ⟨fsC, mC, hC, hCdirs, hCfile, hCex, hCext3⟩ :=
    write_module_cpp_facts fsB (module_path_of root module) module
      (get_camel_name module) module
  obtain ⟨fsD, mD, hD, hDfile, hDex, hDexdocs⟩ :=
    dir_step_facts fsC (docs_path_of root module)
      ["Docs path already exists: " ++ docs_path_of root module]
      ["Creating " ++ docs_path_of root module ++ "..."]
  obtain ⟨fsE, mE, hE, hEfile, hEex, hEextest⟩ :=
    dir_step_facts fsD (test_path_of root module)
      ["Test path already exists: " ++ test_path_of root module]
      ["Creating " ++ test_path_of root module ++ "..."]
  have hEcm : fsE.getFile (pyJoin root "CMakeLists.txt") = some cmcontent := by
    rw [hEfile, hDfile, hCfile _ hne_cm_t3, hBfile _ hne_cm_t2, hAfile, hcm]
  obtain ⟨fsF, mF, hF, hFdirs, ⟨c1, hFc1, hFc1lines⟩, hFfile, hFex⟩ :=
    update_cmake_run fsE root module (get_camel_name module) cmcontent _ hEcm hout1 hline_cm
  have hFfl : fsF.getFile (pyJoin root "ClangTidyForceLinker.h") = some hcontent := by
    rw [hFfile _ (Ne.symm hne_cm_fl), hEfile, hDfile, hCfile _ hne_fl_t3,
      hBfile _ hne_fl_t2, hAfile, hh]
  obtain ⟨fsG, mG, hG, hGdirs, ⟨c2, hGc2, hGc2lines⟩, hGfile, hGex⟩ :=
    update_fl_run fsF root (get_camel_name module) hcontent _ hFfl hout2 hline_fl
  have hrun1 : main fs root (some module) d =
      some (fsG, mA ++ mB ++ mC ++ mD ++ mE ++ mF ++ mG
        ++ ["Done. Now it's your turn!"]) := by
    simp only [main]
    rw [if_neg hmod_ne, if_neg (show ¬ (!pyIsAlnum module) = true by
      rw [hmod]; decide)]
    simp only [hA, hB, hC, hD, hE, hF, hG]
  -- existence facts carried to the end of run 1
  have hGexM : fsG.existsPath (module_path_of root module) = true :=
    hGex _ (hFex _ (hEex _ (hDex _ (hCex _ (hBex _ hAexM)))))
  have hGext2 : fsG.existsPath (pyJoin (module_path_of root module)
      "CMakeLists.txt") = true :=
    hGex _ (hFex _ (hEex _ (hDex _ (hCex _ hBext2))))
  have hGext3 : fsG.existsPath (pyJoin (module_path_of root module)
      (get_camel_name module ++ "TidyModule.cpp")) = true :=
    hGex _ (hFex _ (hEex _ (hDex _ hCext3)))
  have hGexdocs : fsG.existsPath (docs_path_of root module) = true :=
    hGex _ (hFex _ (hEex _ hDexdocs))
  have hGextest : fsG.existsPath (test_path_of root module) = true :=
    hGex _ (hFex _ hEextest)
  -- the two shared files after run 1, as seen by run 2
  have hGcm : fsG.getFile (pyJoin root "CMakeLists.txt") = some c1 := by
    rw [hGfile _ hne_cm_fl, hFc1]
  -- run 2: every step is a no-op
  have hA2 : (if fsG.existsPath (module_path_of root module) then
      (fsG, ["Module path already exists: " ++ module_path_of root module])
      else (fsG.mkdir (module_path_of root module),
        ["Creating " ++ module_path_of root module ++ "..."])) =
      (fsG, ["Module path already exists: " ++ module_path_of root module]) := by
    rw [if_pos hGexM]
  have hB2 : write_cmake fsG (module_path_of root module) (get_camel_name module) =
      (fsG, []) := by
    simp only [write_cmake]
    rw [if_pos hGext2]
  have hC2 : write_module_cpp fsG (module_path_of root module) module
      (get_camel_name module) module =
      (fsG, ["File already exists: " ++ pyJoin (module_path_of root module)
        (get_camel_name module ++ "TidyModule.cpp")]) := by
    simp only [write_module_cpp]
    rw [if_pos hGext3]
  have hD2 : (if fsG.existsPath (docs_path_of root module) then
      (fsG, ["Docs path already exists: " ++ docs_path_of root module])
      else (fsG.mkdir (docs_path_of root module),
        ["Creating " ++ docs_path_of root module ++ "..."])) =
      (fsG, ["Docs path already exists: " ++ docs_path_of root module]) := by
    rw [if_pos hGexdocs]
  have hE2 : (if fsG.existsPath (test_path_of root module) then
      (fsG, ["Test path already exists: " ++ test_path_of root module])
      else (fsG.mkdir (test_path_of root module),
        ["Creating " ++ test_path_of root module ++ "..."])) =
      (fsG, ["Test path already exists: " ++ test_path_of root module]) := by
    rw [if_pos hGextest]
  have hF2 : update_clang_tidy_cmake fsG root module (get_camel_name module) =
      some (fsG, ["Module already included: " ++ pyJoin root "CMakeLists.txt"]) := by
    apply update_cmake_second_noop fsG root module (get_camel_name module) c1
      pre T1 Z1 T2 Z2 marker hGcm hFc1lines hpre ?_ ?_ hmark
      (fun l hl => ⟨(hT2f l hl).1, (hT2f l hl).2.1⟩) hcam_par
    · intro l hl
      obtain ⟨hmem, hge⟩ := hT1f l hl
      exact ⟨(hrs l hmem).1, (hrs l hmem).2.1, (hrs l hmem).2.2, hge⟩
    · intro l hl
      exact (hrs l (hZ1f l hl)).2.2
  have hG2 : update_clang_tidy_force_linker fsG root (get_camel_name module) =
      some (fsG, ["Module already has forced link: "
        ++ pyJoin root "ClangTidyForceLinker.h"]) := by
    apply update_fl_second_noop fsG root (get_camel_name module) c2 hpre2 B Y
      hGc2 hGc2lines hhpre hre
    intro x hx
    rcases hBhead with hB0 | hB0
    · rw [hB0] at hx
      simp at hx
      rw [← hx]
      exact anchorCand_sw_anchor (get_camel_name module)
    · rw [List.head?_append_of_ne_nil] at hx
      · rw [hB0] at hx
        rw [← Option.some.inj hx]
        exact hl0
      · intro hnil
        rw [hnil] at hB0
        simp at hB0
  have hrun2 : main fsG root (some module) d = some (fsG,
      ["Module path already exists: " ++ module_path_of root module,
       "File already exists: " ++ pyJoin (module_path_of root module)
         (get_camel_name module ++ "TidyModule.cpp"),
       "Docs path already exists: " ++ docs_path_of root module,
       "Test path already exists: " ++ test_path_of root module,
       "Module already included: " ++ pyJoin root "CMakeLists.txt",
       "Module already has forced link: " ++ pyJoin root "ClangTidyForceLinker.h",
       "Done. Now it's your turn!"]) := by
    simp only [main]
    rw [if_neg hmod_ne, if_neg (show ¬ (!pyIsAlnum module) = true by
      rw [hmod]; decide)]
    simp only [hA2, hB2, hC2, hD2, hE2, hF2, hG2]
    rfl
  exact ⟨fsG, _, hrun1, hrun2⟩

/-- C1, counterexample to the unconditional claim: on a tree whose CMake file
has an `add_subdirectory` region but no `set(ALL_CLANG_TIDY_CHECKS` marker,
the second run of `main` rewrites the CMake file (it appends the library line
again), so the file contents after the second run differ from those after the
first. -/
theorem C1_counterexample :
    (match main ⟨[], [("ct/CMakeLists.txt", "add_subdirectory(alpha)\n"),
        ("ct/ClangTidyForceLinker.h", "")]⟩ "ct" (some "bar") "x" with
     | none => true
     | some (fs1, _) =>
       match main fs1 "ct" (some "bar") "x" with
       | none => true
       | some (fs2, _) =>
         decide (fs2.getFile (pyJoin "ct" "CMakeLists.txt") =
           fs1.getFile (pyJoin "ct" "CMakeLists.txt"))) = false := by
  decide

/-- C1, witness: the amended idempotence theorem applied to a concrete
well-formed tree. -/
theorem C1_witness :
    ∃ fs1 out1,
      main ⟨[], [("ct/CMakeLists.txt",
          "# top\nadd_subdirectory(android)\nset(ALL_CLANG_TIDY_CHECKS\n  clangTidyAndroidModule\n  )\n"),
        ("ct/ClangTidyForceLinker.h",
          "#ifndef G\n// This anchor is used to force the linker to link the AndroidModule.\n#if X\ninner\n#endif\n\x7d // namespace clang\n#endif\n")]⟩
        "ct" (some "bar") "x" = some (fs1, out1) ∧
      main fs1 "ct" (some "bar") "x" = some (fs1,
        ["Module path already exists: " ++ module_path_of "ct" "bar",
         "File already exists: " ++ pyJoin (module_path_of "ct" "bar")
           (get_camel_name "bar" ++ "TidyModule.cpp"),
         "Docs path already exists: " ++ docs_path_of "ct" "bar",
         "Test path already exists: " ++ test_path_of "ct" "bar",
         "Module already included: " ++ pyJoin "ct" "CMakeLists.txt",
         "Module already has forced link: " ++ pyJoin "ct" "ClangTidyForceLinker.h",
         "Done. Now it's your turn!"]) :=
  C1_amended
    ⟨[], [("ct/CMakeLists.txt",
        "# top\nadd_subdirectory(android)\nset(ALL_CLANG_TIDY_CHECKS\n  clangTidyAndroidModule\n  )\n"),
      ("ct/ClangTidyForceLinker.h",
        "#ifndef G\n// This anchor is used to force the linker to link the AndroidModule.\n#if X\ninner\n#endif\n\x7d // namespace clang\n#endif\n")]⟩
    "ct" "bar" "x"
    "# top\nadd_subdirectory(android)\nset(ALL_CLANG_TIDY_CHECKS\n  clangTidyAndroidModule\n  )\n"
    "#ifndef G\n// This anchor is used to force the linker to link the AndroidModule.\n#if X\ninner\n#endif\n\x7d // namespace clang\n#endif\n"
    ["# top\n"] ["add_subdirectory(android)\n"]
    ["  clangTidyAndroidModule\n"] [] "set(ALL_CLANG_TIDY_CHECKS\n" "  )\n"
    ["#ifndef G\n"]
    "// This anchor is used to force the linker to link the AndroidModule.\n"
    [["#if X\n", "inner\n", "#endif\n"]]
    "\x7d // namespace clang\n" ["#endif\n"]
    (by decide) (by decide) (by decide) (by decide) (by decide)
    (by decide) (by decide) (by decide) (by decide) (by decide)
    (by decide) (by decide) (by decide) (by decide) (by decide)
    (by decide) (by decide) (by decide) (by decide) (by decide)
    (by decide)

end AddNewModule
